import Mathlib

/-!
Verification of the structured-output and MCP-context subsystems of the
delve-ai repository (src/src/utils/structured_output.py and
src/src/context/mcp_context.py).

Python strings are modelled as lists of characters (`Str`), Python values
as the inductive `PyVal`, Python floats as rationals, and functions that
can raise a Python exception return `Except PyErr`.  Each definition is a
direct translation of the corresponding Python function; the doc comment
of each definition names its source.  Where Python standard-library
behaviour is involved (json.loads, ast.literal_eval, str.splitlines) the
model implements the documented behaviour on the fragment of inputs the
repository is concerned with, as noted at each definition.
-/

/-- Python `str` values, modelled as lists of characters. -/
abbrev Str := List Char

/-- Convert a Lean string literal to the `Str` model. -/
def str (s : String) : Str := s.data

/-- Python exceptions that the modelled code can raise.
`attributeError` stands for the AttributeError raised when
`MessageContentType.LIST` is evaluated (the enum in
src/src/models/enums.py has no `LIST` member), `typeError` for
unsupported-operand errors. -/
inductive PyErr : Type where
  | attributeError
  | typeError
  deriving DecidableEq, Repr

/-- Python values as they occur in the analysed code: strings, ints,
floats (modelled as rationals), bools, None, lists and dicts.  Dicts are
insertion-ordered association lists, as in CPython.  Tuples and sets are
not modelled (the repository never constructs them, and `_parse_json`
rejects non dict/list values). -/
inductive PyVal : Type where
  | str (s : Str)
  | int (n : Int)
  | float (q : ℚ)
  | bool (b : Bool)
  | none
  | list (xs : List PyVal)
  | dict (entries : List (PyVal × PyVal))

/-- Characters treated as whitespace by Python `str.strip()` and by the
regex class `\s` (the ASCII fragment; exotic unicode whitespace is not
modelled). -/
def pySpace (c : Char) : Bool :=
  c = ' ' || c = '\t' || c = '\n' || c = '\x0d' || c = '\x0b' || c = '\x0c'

/-- Python `str.strip()` (no argument): remove leading and trailing
whitespace. -/
def pyStrip (s : Str) : Str :=
  ((s.dropWhile pySpace).reverse.dropWhile pySpace).reverse

/-- Python `str.rstrip()` (no argument). -/
def pyRstrip (s : Str) : Str :=
  (s.reverse.dropWhile pySpace).reverse

/-- Python `str.strip(c)` for a one-character argument: remove every
leading and trailing occurrence of `c`. -/
def pyStripChar (c : Char) (s : Str) : Str :=
  ((s.dropWhile (· = c)).reverse.dropWhile (· = c)).reverse

/-- Python `str.lower()` (ASCII fragment). -/
def pyLower (s : Str) : Str := s.map Char.toLower

/-- Python `str.split(c)` for a one-character separator. -/
def pySplitChar (c : Char) (s : Str) : List Str :=
  match s with
  | [] => [[]]
  | x :: xs =>
    match pySplitChar c xs with
    | [] => [[x]]
    | y :: ys => if x = c then [] :: y :: ys else (x :: y) :: ys

/-- Python `str.splitlines()`: split at `\n`, `\r\n` and `\r`, with no
trailing empty line for a trailing terminator (the exotic unicode line
separators accepted by CPython are not modelled). -/
def pySplitlines (s : Str) : List Str :=
  match s with
  | [] => []
  | '\x0d' :: '\n' :: rest => [] :: pySplitlines rest
  | '\x0d' :: rest => [] :: pySplitlines rest
  | '\n' :: rest => [] :: pySplitlines rest
  | c :: rest =>
    match pySplitlines rest with
    | [] => [[c]]
    | y :: ys => (c :: y) :: ys

/-- Python substring test `needle in hay`. -/
def pyIn (needle hay : Str) : Bool :=
  (hay.tails).any (fun t => needle.isPrefixOf t)

/-- Python `str.startswith` for a single pattern. -/
def pyStartswith (pre s : Str) : Bool := pre.isPrefixOf s

/-- `"\n".join(parts)`, generalised to an arbitrary separator. -/
def pyJoin (sep : Str) : List Str → Str
  | [] => []
  | [x] => x
  | x :: xs => x ++ sep ++ pyJoin sep xs

/-- Truthiness of a `PyVal`, as used by Python `if x:` and `x or y`. -/
def pyTruthy : PyVal → Bool
  | .str s => s ≠ []
  | .int n => n ≠ 0
  | .float q => q ≠ 0
  | .bool b => b
  | .none => false
  | .list xs => !xs.isEmpty
  | .dict d => !d.isEmpty

/-- Python `a or b` on `PyVal`s. -/
def pyOr (a b : PyVal) : PyVal := if pyTruthy a then a else b

/-- Equality test used for dict keys.  Keys occurring in the modelled
code are always hashable scalars (strings, numbers, bools, None);
containers are unhashable in Python and can never be dict keys, so the
comparison returns false for them. -/
def pyKeyBeq : PyVal → PyVal → Bool
  | .str a, .str b => a = b
  | .int a, .int b => a = b
  | .int a, .float b => (a : ℚ) = b
  | .float a, .int b => a = (b : ℚ)
  | .float a, .float b => a = b
  | .bool a, .bool b => a = b
  | .bool a, .int b => (if a then (1 : Int) else 0) = b
  | .int a, .bool b => a = (if b then (1 : Int) else 0)
  | .none, .none => true
  | _, _ => false

/-- `d[k] = v` on an insertion-ordered dict: overwrite in place when the
key exists, else append. -/
def dictInsert (d : List (PyVal × PyVal)) (k v : PyVal) : List (PyVal × PyVal) :=
  if d.any (fun p => pyKeyBeq p.1 k) then
    d.map (fun p => if pyKeyBeq p.1 k then (p.1, v) else p)
  else
    d ++ [(k, v)]

/-- Python `d.get(key)` for a string key, returning `None` when absent. -/
def dictGet (d : List (PyVal × PyVal)) (key : Str) : PyVal :=
  match d.find? (fun p => pyKeyBeq p.1 (.str key)) with
  | some p => p.2
  | none => .none

/-- Python `d.get(key, default)` with a general `PyVal` key. -/
def dictGetD (d : List (PyVal × PyVal)) (key : PyVal) (dflt : PyVal) : PyVal :=
  match d.find? (fun p => pyKeyBeq p.1 key) with
  | some p => p.2
  | none => dflt

/-- Python `key in d` for a string key. -/
def dictHasKey (d : List (PyVal × PyVal)) (key : Str) : Bool :=
  d.any (fun p => pyKeyBeq p.1 (.str key))

/-- `isinstance(v, str)`. -/
def isStr : PyVal → Bool
  | .str _ => true
  | _ => false

/-- `isinstance(v, dict)`. -/
def isDict : PyVal → Bool
  | .dict _ => true
  | _ => false

/-- `isinstance(v, list)`. -/
def isList : PyVal → Bool
  | .list _ => true
  | _ => false

/-- The apostrophe character (U+0027), used in modelled Python string
literals. -/
def squote : Char := Char.ofNat 39

/-- The backtick character (U+0060). -/
def btick : Char := Char.ofNat 96

/-- Strip a prefix: `some` of the remainder when `pre` is a prefix of
`s`, else `none`. -/
def dropPre (pre s : Str) : Option Str :=
  if pre.isPrefixOf s then some (s.drop pre.length) else Option.none

/-- Python `str.strip(chars)` for a set of characters. -/
def pyStripSet (cs : List Char) (s : Str) : Str :=
  ((s.dropWhile (cs.contains ·)).reverse.dropWhile (cs.contains ·)).reverse

/-- The image extensions of the regex
`^https?://\S+\.(png|jpe?g|gif|webp|svg)$` in `_extract_image_payload`
(src/src/utils/structured_output.py line 252). -/
def imageExts : List Str :=
  [str "png", str "jpg", str "jpeg", str "gif", str "webp", str "svg"]

/-- Whole-string match of `^https?://\S+\.(png|jpe?g|gif|webp|svg)$` with
IGNORECASE (structured_output.py line 252). -/
def matchDirectImageUrl (s : Str) : Bool :=
  let ls := pyLower s
  let rest := match dropPre (str "https://") ls with
    | some r => some r
    | Option.none => dropPre (str "http://") ls
  match rest with
  | Option.none => false
  | some r =>
    r.all (fun c => !pySpace c) &&
    imageExts.any (fun e => ('.' :: e).isSuffixOf r && decide (e.length + 1 < r.length))

/-- Whole-string match of `^!\[([^\]]*)\]\((https?://[^\s)]+)\)$`
(structured_output.py line 256), returning the alt text and url groups. -/
def matchMdImage (s : Str) : Option (Str × Str) :=
  match s with
  | '!' :: '[' :: rest =>
    let alt := rest.takeWhile (· ≠ ']')
    (match rest.drop alt.length with
     | ']' :: '(' :: r2 =>
       let scheme? : Option (Str × Str) :=
         match dropPre (str "https://") r2 with
         | some r => some (str "https://", r)
         | Option.none =>
           match dropPre (str "http://") r2 with
           | some r => some (str "http://", r)
           | Option.none => Option.none
       match scheme? with
       | Option.none => Option.none
       | some (sch, r3) =>
         match r3.reverse with
         | ')' :: revCore =>
           let core := revCore.reverse
           if !core.isEmpty && core.all (fun c => !pySpace c && c ≠ ')') then
             some (alt, sch ++ core)
           else Option.none
         | _ => Option.none
     | _ => Option.none)
  | _ => Option.none

/-- `_extract_image_payload` (structured_output.py lines 250-260). -/
def extract_image_payload (content : Str) : Option PyVal :=
  if matchDirectImageUrl content then
    some (.dict [(.str (str "url"), .str (pyStrip content)), (.str (str "alt"), .str [])])
  else
    match matchMdImage (pyStrip content) with
    | some (alt, url) =>
      some (.dict [(.str (str "url"), .str (pyStrip url)), (.str (str "alt"), .str (pyStrip alt))])
    | Option.none => Option.none

/-- Match of the table separator pattern `^\|?\s*:?-{3,}.*`
(structured_output.py lines 286 and 462). -/
def sepMatch (l : Str) : Bool :=
  let l1 := match l with | '|' :: r => r | r => r
  let l2 := l1.dropWhile pySpace
  let l3 := match l2 with | ':' :: r => r | r => r
  pyStartswith (str "---") l3

/-- The stripped non-blank lines of a content string:
`[line.strip() for line in content.splitlines() if line.strip()]`
(structured_output.py lines 277 and 458). -/
def pyLines (content : Str) : List Str :=
  ((pySplitlines content).map pyStrip).filter (fun l => !l.isEmpty)

/-- Cell extraction `[cell.strip() for cell in line.strip("|").split("|")]`
(structured_output.py lines 289 and 294). -/
def pyCells (l : Str) : List Str :=
  (pySplitChar '|' (pyStripChar '|' l)).map pyStrip

/-- `dict(zip(headers, cells))` (structured_output.py line 297). -/
def dictZip (hs cs : List Str) : PyVal :=
  .dict ((hs.zip cs).foldl (fun d p => dictInsert d (.str p.1) (.str p.2)) [])

/-- The row-collection loop of `_parse_markdown_table`
(structured_output.py lines 290-297): stop at the first line without a
`|`, skip rows whose cell count differs from the header count. -/
def collectRows (hs : List Str) : List Str → List PyVal
  | [] => []
  | d :: rest =>
    if !(d.contains '|') then []
    else
      let cells := pyCells d
      if cells.length ≠ hs.length then collectRows hs rest
      else dictZip hs cells :: collectRows hs rest

/-- The index scan of `_parse_markdown_table` (structured_output.py
lines 281-301): find adjacent lines where the first contains a `|` and
the second matches the separator pattern, and return headers/rows when
at least one data row parses. -/
def scanPairs : List Str → Option PyVal
  | h :: s :: rest =>
    if h.contains '|' && sepMatch s then
      let headers := pyCells h
      let rows := collectRows headers rest
      if !rows.isEmpty then
        some (.dict [(.str (str "headers"), .list (headers.map .str)),
                     (.str (str "rows"), .list rows)])
      else scanPairs (s :: rest)
    else scanPairs (s :: rest)
  | _ => Option.none

/-- `_parse_markdown_table` (structured_output.py lines 275-301). -/
def parse_markdown_table (content : Str) : Option PyVal :=
  scanPairs (pyLines content)

/-- The adjacent-pair scan of `_looks_like_table` (structured_output.py
lines 459-463). -/
def looksTablePairs : List Str → Bool
  | a :: b :: rest =>
    (decide (2 ≤ a.count '|') && sepMatch b) || looksTablePairs (b :: rest)
  | _ => false

/-- `_looks_like_table` (structured_output.py lines 453-464). -/
def looks_like_table (content : Str) : Bool :=
  let lowered := pyLower content
  if pyIn (str "<table") lowered && pyIn (str "</table>") lowered then true
  else looksTablePairs (pyLines content)

/-- `_parse_table` (structured_output.py lines 263-272). -/
def parse_table (content : Str) : Option PyVal :=
  match parse_markdown_table content with
  | some t => some t
  | Option.none =>
    if pyIn (str "<table") (pyLower content) && pyIn (str "</table>") (pyLower content) then
      some (.dict [(.str (str "html"), .str content)])
    else if looks_like_table content then
      some (.dict [(.str (str "raw"), .str content)])
    else Option.none

/-- Match of `^(\d+)[\.)]\s+(.*)` (structured_output.py line 328),
returning the text group. -/
def matchOrdered (l : Str) : Option Str :=
  let ds := l.takeWhile Char.isDigit
  if ds.isEmpty then Option.none
  else
    match l.drop ds.length with
    | c :: r2 =>
      if c = '.' || c = ')' then
        let sp := r2.takeWhile pySpace
        if sp.isEmpty then Option.none else some (r2.drop sp.length)
      else Option.none
    | [] => Option.none

/-- Match of `^[-*+]\s+(.*)` (structured_output.py lines 340 and 362),
returning the text group. -/
def matchBullet (l : Str) : Option Str :=
  match l with
  | c :: r =>
    if c = '-' || c = '*' || c = '+' then
      let sp := r.takeWhile pySpace
      if sp.isEmpty then Option.none else some (r.drop sp.length)
    else Option.none
  | [] => Option.none

/-- Match of the heading pattern `^#{1,6}\s` (structured_output.py
lines 336 and 370). -/
def matchHeading (l : Str) : Bool :=
  let hs := l.takeWhile (· = '#')
  decide (1 ≤ hs.length) && decide (hs.length ≤ 6) &&
    (match l.drop hs.length with
     | c :: _ => pySpace c
     | [] => false)

/-- Match of `^(?:[-*+]|\d+[\.)])\s+(.*)` (structured_output.py
line 374). -/
def matchNested (l : Str) : Option Str :=
  match matchBullet l with
  | some r => some r
  | Option.none => matchOrdered l

/-- `"\n".join(current).strip()` as used when an accumulated list item is
flushed (structured_output.py lines 331, 337, 347; the parts are never
`None`, so the comprehension filter is the identity). -/
def joinCurrent (cur : List Str) : Str := pyStrip (pyJoin (str "\n") cur)

/-- One iteration of the line loop of `_parse_ordered_list`
(structured_output.py lines 320-344).  The state is the pair of the
flushed items and the optional current item. -/
def orderedStep (st : List Str × Option (List Str)) (raw_line : Str) :
    List Str × Option (List Str) :=
  let stripped := pyStrip (pyRstrip raw_line)
  match st.2 with
  | some cur =>
    if stripped.isEmpty then (st.1, some (cur ++ [[]]))
    else
      match matchOrdered stripped with
      | some txt => (st.1 ++ [joinCurrent cur], some [pyStrip txt])
      | Option.none =>
        if matchHeading stripped then (st.1 ++ [joinCurrent cur], Option.none)
        else
          match matchBullet stripped with
          | some b => (st.1, some (cur ++ [str "- " ++ pyStrip b]))
          | Option.none => (st.1, some (cur ++ [stripped]))
  | Option.none =>
    if stripped.isEmpty then st
    else
      match matchOrdered stripped with
      | some txt => (st.1, some [pyStrip txt])
      | Option.none => st

/-- `_parse_ordered_list` (structured_output.py lines 317-348). -/
def parse_ordered_list (content : Str) : List Str :=
  let st := (pySplitlines content).foldl orderedStep ([], Option.none)
  let items := match st.2 with
    | some cur => st.1 ++ [joinCurrent cur]
    | Option.none => st.1
  items.filter (fun i => !i.isEmpty)

/-- One iteration of the line loop of `_parse_unordered_list`
(structured_output.py lines 354-378). -/
def unorderedStep (st : List Str × Option (List Str)) (raw_line : Str) :
    List Str × Option (List Str) :=
  let stripped := pyStrip (pyRstrip raw_line)
  match st.2 with
  | some cur =>
    if stripped.isEmpty then (st.1, some (cur ++ [[]]))
    else
      match matchBullet stripped with
      | some txt => (st.1 ++ [joinCurrent cur], some [pyStrip txt])
      | Option.none =>
        if matchHeading stripped then (st.1 ++ [joinCurrent cur], Option.none)
        else
          match matchNested stripped with
          | some b => (st.1, some (cur ++ [str "- " ++ pyStrip b]))
          | Option.none => (st.1, some (cur ++ [stripped]))
  | Option.none =>
    if stripped.isEmpty then st
    else
      match matchBullet stripped with
      | some txt => (st.1, some [pyStrip txt])
      | Option.none => st

/-- `_parse_unordered_list` (structured_output.py lines 351-382). -/
def parse_unordered_list (content : Str) : List Str :=
  let st := (pySplitlines content).foldl unorderedStep ([], Option.none)
  let items := match st.2 with
    | some cur => st.1 ++ [joinCurrent cur]
    | Option.none => st.1
  items.filter (fun i => !i.isEmpty)

/-- The detection result of `_parse_list` (structured_output.py
lines 304-314): whether the content parses as an ordered or unordered
list.  The structured payload `_parse_list` builds (via
`_normalise_list_items`) is never observable, because `analyse_content`
raises an AttributeError whenever the payload is non-`None` (it then
evaluates the missing enum member `MessageContentType.LIST`, line 39), so
only the detection result is modelled. -/
def parse_list_detect (content : Str) : Bool :=
  !(parse_ordered_list content).isEmpty || !(parse_unordered_list content).isEmpty

/-- Whitespace skipped between JSON tokens by `json.loads` (space, tab,
newline, carriage return). -/
def jsonSkipWs (s : Str) : Str :=
  s.dropWhile (fun c => c = ' ' || c = '\t' || c = '\n' || c = '\x0d')

/-- Decimal digits to a natural number. -/
def digitsToNat (ds : Str) : Nat :=
  ds.foldl (fun a c => a * 10 + (c.toNat - 48)) 0

/-- JSON string body after the opening quote: the decoded content and the
remainder after the closing quote.  The escapes `\" \\ \/ \n \t \r \b \f`
are modelled; `\u` escapes are not (such inputs are treated as a parse
failure), and raw control characters are rejected as `json.loads` does in
strict mode. -/
def jsonString : Str → Option (Str × Str)
  | [] => Option.none
  | '"' :: rest => some ([], rest)
  | '\\' :: '"' :: r => (jsonString r).map (fun p => ('"' :: p.1, p.2))
  | '\\' :: '\\' :: r => (jsonString r).map (fun p => ('\\' :: p.1, p.2))
  | '\\' :: '/' :: r => (jsonString r).map (fun p => ('/' :: p.1, p.2))
  | '\\' :: 'n' :: r => (jsonString r).map (fun p => ('\n' :: p.1, p.2))
  | '\\' :: 't' :: r => (jsonString r).map (fun p => ('\t' :: p.1, p.2))
  | '\\' :: 'r' :: r => (jsonString r).map (fun p => ('\x0d' :: p.1, p.2))
  | '\\' :: 'b' :: r => (jsonString r).map (fun p => ('\x08' :: p.1, p.2))
  | '\\' :: 'f' :: r => (jsonString r).map (fun p => ('\x0c' :: p.1, p.2))
  | '\\' :: _ => Option.none
  | c :: rest =>
    if c.toNat < 32 then Option.none
    else (jsonString rest).map (fun p => (c :: p.1, p.2))

/-- Optional JSON fraction part `.digits`: value, presence flag,
remainder. -/
def jsonFrac (s : Str) : Option (ℚ × Bool × Str) :=
  match s with
  | '.' :: r =>
    let fs := r.takeWhile Char.isDigit
    if fs.isEmpty then Option.none
    else some ((digitsToNat fs : ℚ) / ((10 : ℚ) ^ fs.length), true, r.drop fs.length)
  | _ => some (0, false, s)

/-- Optional JSON exponent part `[eE][+-]?digits`: exponent, presence
flag, remainder. -/
def jsonExpo (s : Str) : Option (Int × Bool × Str) :=
  match s with
  | c :: r =>
    if c = 'e' || c = 'E' then
      let (sgn, r1) : Int × Str :=
        match r with
        | '+' :: rr => (1, rr)
        | '-' :: rr => (-1, rr)
        | rr => (1, rr)
      let ds := r1.takeWhile Char.isDigit
      if ds.isEmpty then Option.none
      else some (sgn * (digitsToNat ds : Int), true, r1.drop ds.length)
    else some (0, false, s)
  | [] => some (0, false, [])

/-- A JSON number token: `int` for plain integers, `float` (a rational)
when a fraction or exponent is present, as `json.loads` distinguishes
them. -/
def jsonNumber (s : Str) : Option (PyVal × Str) := do
  let (neg, s1) : Bool × Str := match s with | '-' :: r => (true, r) | _ => (false, s)
  let ds := s1.takeWhile Char.isDigit
  if ds.isEmpty then failure
  if 1 < ds.length && ds.head? = some '0' then failure
  let s2 := s1.drop ds.length
  let (fq, hasFrac, s3) ← jsonFrac s2
  let (ex, hasExp, s4) ← jsonExpo s3
  if hasFrac || hasExp then
    let mag : ℚ := ((digitsToNat ds : ℚ) + fq) * (10 : ℚ) ^ ex
    pure (.float (if neg then -mag else mag), s4)
  else
    pure (.int (if neg then -(digitsToNat ds : Int) else (digitsToNat ds : Int)), s4)

mutual

/-- JSON value parse, fuelled to make the mutual recursion structural.
Faithful to `json.loads` on the modelled fragment: objects (last
duplicate key wins, as in CPython), arrays, strings, numbers, `true`,
`false`, `null`; no trailing commas. -/
def jsonVal : Nat → Str → Option (PyVal × Str)
  | 0, _ => Option.none
  | f + 1, s =>
    match s with
    | '{' :: r =>
      (match jsonSkipWs r with
       | '}' :: r2 => some (.dict [], r2)
       | r2 => jsonMembers f r2 [])
    | '[' :: r =>
      (match jsonSkipWs r with
       | ']' :: r2 => some (.list [], r2)
       | r2 => jsonItems f r2 [])
    | '"' :: r => (jsonString r).map (fun p => (.str p.1, p.2))
    | 't' :: _ => (dropPre (str "true") s).map (fun r => (.bool true, r))
    | 'f' :: _ => (dropPre (str "false") s).map (fun r => (.bool false, r))
    | 'n' :: _ => (dropPre (str "null") s).map (fun r => (.none, r))
    | _ => jsonNumber s

/-- JSON object members after at least one key is required. -/
def jsonMembers : Nat → Str → List (PyVal × PyVal) → Option (PyVal × Str)
  | 0, _, _ => Option.none
  | f + 1, s, acc =>
    match s with
    | '"' :: r => do
      let (k, r1) ← jsonString r
      match jsonSkipWs r1 with
      | ':' :: r3 => do
        let (v, r4) ← jsonVal f (jsonSkipWs r3)
        let acc2 := dictInsert acc (.str k) v
        (match jsonSkipWs r4 with
         | ',' :: r6 => jsonMembers f (jsonSkipWs r6) acc2
         | '}' :: r6 => some (.dict acc2, r6)
         | _ => Option.none)
      | _ => Option.none
    | _ => Option.none

/-- JSON array items after at least one item is required. -/
def jsonItems : Nat → Str → List PyVal → Option (PyVal × Str)
  | 0, _, _ => Option.none
  | f + 1, s, acc => do
    let (v, r) ← jsonVal f s
    (match jsonSkipWs r with
     | ',' :: r2 => jsonItems f (jsonSkipWs r2) (acc ++ [v])
     | ']' :: r2 => some (.list (acc ++ [v]), r2)
     | _ => Option.none)

end

/-- `json.loads` on the modelled fragment: a single JSON document,
surrounded by optional whitespace. -/
def jsonLoads (s : Str) : Option PyVal :=
  match jsonVal (s.length + 1) (jsonSkipWs s) with
  | some (v, rest) => if (jsonSkipWs rest).isEmpty then some v else Option.none
  | Option.none => Option.none

/-- A Python string literal body after the opening quote `q`: single or
double quoted, with the escapes `\\`, the quotes, `\n`, `\t`, `\r`
modelled; raw newlines are rejected as CPython does.  Triple-quoted
strings, string concatenation and the remaining escape forms are not
modelled (such inputs are treated as a parse failure). -/
def litString (q : Char) : Str → Option (Str × Str)
  | [] => Option.none
  | '\\' :: e :: r =>
    if e = '\\' then (litString q r).map (fun p => ('\\' :: p.1, p.2))
    else if e = squote then (litString q r).map (fun p => (squote :: p.1, p.2))
    else if e = '"' then (litString q r).map (fun p => ('"' :: p.1, p.2))
    else if e = 'n' then (litString q r).map (fun p => ('\n' :: p.1, p.2))
    else if e = 't' then (litString q r).map (fun p => ('\t' :: p.1, p.2))
    else if e = 'r' then (litString q r).map (fun p => ('\x0d' :: p.1, p.2))
    else Option.none
  | c :: rest =>
    if c = q then some ([], rest)
    else if c = '\n' || c = '\x0d' then Option.none
    else (litString q rest).map (fun p => (c :: p.1, p.2))

/-- A Python number literal with an optional sign: integers and floats of
the forms `1`, `1.5`, `.5`, `1.`, with an optional exponent.  Underscore
separators and non-decimal bases are not modelled. -/
def litNumber (s : Str) : Option (PyVal × Str) := do
  let (neg, s1) : Bool × Str :=
    match s with
    | '-' :: r => (true, r)
    | '+' :: r => (false, r)
    | _ => (false, s)
  let ds := s1.takeWhile Char.isDigit
  let s2 := s1.drop ds.length
  let (fq, hasFrac, fracDigits, s3) : ℚ × Bool × Bool × Str :=
    match s2 with
    | '.' :: r =>
      let fs := r.takeWhile Char.isDigit
      ((digitsToNat fs : ℚ) / ((10 : ℚ) ^ fs.length), true, !fs.isEmpty, r.drop fs.length)
    | _ => (0, false, false, s2)
  if ds.isEmpty && !fracDigits then failure
  let (ex, hasExp, s4) ← jsonExpo s3
  if !hasFrac && !hasExp && 1 < ds.length && ds.head? = some '0' then failure
  if hasFrac || hasExp then
    let mag : ℚ := ((digitsToNat ds : ℚ) + fq) * (10 : ℚ) ^ ex
    pure (.float (if neg then -mag else mag), s4)
  else
    pure (.int (if neg then -(digitsToNat ds : Int) else (digitsToNat ds : Int)), s4)

mutual

/-- A Python literal expression as accepted by `ast.literal_eval` on the
modelled fragment: dicts, lists, strings, numbers, `True`, `False`,
`None`, with trailing commas in containers.  Tuples, sets, bytes and
complex numbers are not modelled (treated as parse failure; for a
top-level tuple or set, `_parse_json` would discard the result anyway
since it keeps only dicts and lists). -/
def litVal : Nat → Str → Option (PyVal × Str)
  | 0, _ => Option.none
  | f + 1, s =>
    match s with
    | '{' :: r =>
      (match jsonSkipWs r with
       | '}' :: r2 => some (.dict [], r2)
       | r2 => litPairs f r2 [])
    | '[' :: r =>
      (match jsonSkipWs r with
       | ']' :: r2 => some (.list [], r2)
       | r2 => litItems f r2 [])
    | '"' :: r => (litString '"' r).map (fun p => (.str p.1, p.2))
    | 'T' :: _ => (dropPre (str "True") s).map (fun r => (.bool true, r))
    | 'F' :: _ => (dropPre (str "False") s).map (fun r => (.bool false, r))
    | 'N' :: _ => (dropPre (str "None") s).map (fun r => (.none, r))
    | c :: r =>
      if c = squote then (litString squote r).map (fun p => (.str p.1, p.2))
      else litNumber s
    | [] => Option.none

/-- Python literal dict entries, at least one required. -/
def litPairs : Nat → Str → List (PyVal × PyVal) → Option (PyVal × Str)
  | 0, _, _ => Option.none
  | f + 1, s, acc => do
    let (k, r1) ← litVal f s
    match jsonSkipWs r1 with
    | ':' :: r2 => do
      let (v, r3) ← litVal f (jsonSkipWs r2)
      let acc2 := dictInsert acc k v
      (match jsonSkipWs r3 with
       | ',' :: r4 =>
         (match jsonSkipWs r4 with
          | '}' :: r5 => some (.dict acc2, r5)
          | r5 => litPairs f r5 acc2)
       | '}' :: r4 => some (.dict acc2, r4)
       | _ => Option.none)
    | _ => Option.none

/-- Python literal list items, at least one required. -/
def litItems : Nat → Str → List PyVal → Option (PyVal × Str)
  | 0, _, _ => Option.none
  | f + 1, s, acc => do
    let (v, r) ← litVal f s
    (match jsonSkipWs r with
     | ',' :: r2 =>
       (match jsonSkipWs r2 with
        | ']' :: r3 => some (.list (acc ++ [v]), r3)
        | r3 => litItems f r3 (acc ++ [v]))
     | ']' :: r2 => some (.list (acc ++ [v]), r2)
     | _ => Option.none)

end

/-- `ast.literal_eval` on the modelled fragment: one literal expression
surrounded by optional whitespace. -/
def ast_literal_eval (s : Str) : Option PyVal :=
  match litVal (s.length + 1) (jsonSkipWs s) with
  | some (v, rest) => if (jsonSkipWs rest).isEmpty then some v else Option.none
  | Option.none => Option.none

/-- `_parse_json` (structured_output.py lines 467-476): strict JSON
parse, literal-eval fallback, keeping only dict or list results. -/
def parse_json (content : Str) : Option PyVal :=
  let keep : PyVal → Option PyVal := fun v =>
    if isDict v || isList v then some v else Option.none
  match jsonLoads content with
  | some v => keep v
  | Option.none =>
    match ast_literal_eval content with
    | some v => keep v
    | Option.none => Option.none

/-- `_looks_like_chart_spec` (structured_output.py lines 479-497). -/
def looks_like_chart_spec (payload : PyVal) : Bool :=
  match payload with
  | .dict d =>
    let chart_type := pyOr (dictGet d (str "type")) (dictGet d (str "chartType"))
    let data := pyOr (pyOr (dictGet d (str "data")) (dictGet d (str "datasets")))
      (dictGet d (str "series"))
    if isStr chart_type && pyTruthy data then true
    else if dictHasKey d (str "mark") && dictHasKey d (str "encoding") then true
    else
      dictHasKey d (str "datasets") || dictHasKey d (str "series") ||
        dictHasKey d (str "axes") || dictHasKey d (str "scales")
  | _ => false

/-- Search for `<[^>]+>` (structured_output.py line 502). -/
def hasTag : Str → Bool
  | [] => false
  | '<' :: rest =>
    (let run := rest.takeWhile (· ≠ '>')
     !run.isEmpty && !(rest.drop run.length).isEmpty) || hasTag rest
  | _ :: rest => hasTag rest

/-- Search for `</[^>]+>` (structured_output.py line 502). -/
def hasCloseTag : Str → Bool
  | [] => false
  | '<' :: '/' :: rest =>
    (let run := rest.takeWhile (· ≠ '>')
     !run.isEmpty && !(rest.drop run.length).isEmpty) || hasCloseTag ('/' :: rest)
  | _ :: rest => hasCloseTag rest

/-- `_looks_like_html` (structured_output.py lines 500-502). -/
def looks_like_html (content : Str) : Bool :=
  hasTag content && hasCloseTag content

/-- Search for the inline-link pattern `\[[^\]]+\]\([^)]+\)`
(structured_output.py line 512). -/
def hasMdLink : Str → Bool
  | [] => false
  | '[' :: rest =>
    (let r1 := rest.takeWhile (· ≠ ']')
     !r1.isEmpty &&
       (match rest.drop r1.length with
        | ']' :: '(' :: r2 =>
          let r3 := r2.takeWhile (· ≠ ')')
          !r3.isEmpty && !(r2.drop r3.length).isEmpty
        | _ => false)) || hasMdLink rest
  | _ :: rest => hasMdLink rest

/-- `_looks_like_markdown` (structured_output.py lines 505-516).  As in
the source, the link and code-fence tests inspect the whole content but
sit inside the per-line loop, so they only apply when at least one line
exists. -/
def looks_like_markdown (content : Str) : Bool :=
  (pySplitlines content).any (fun line =>
    let stripped := pyStrip line
    pyStartswith (str "# ") stripped || pyStartswith (str "## ") stripped ||
      pyStartswith (str "### ") stripped || pyStartswith (str "- ") stripped ||
      pyStartswith (str "* ") stripped || pyStartswith (str "> ") stripped ||
      pyStartswith (str "1. ") stripped ||
      hasMdLink content || pyIn [btick, btick, btick] content)

/-- The word-character class `\w` (ASCII fragment). -/
def isWordChar (c : Char) : Bool := c.isAlphanum || c = '_'

/-- The three-backtick fence delimiter. -/
def fence : Str := [btick, btick, btick]

/-- Split a string at the first code fence: the part before it and the
part after it (the lazy group `(.*?)` of the fenced-block regex). -/
def splitAtFence (s : Str) : Option (Str × Str) :=
  match s with
  | [] => Option.none
  | c :: rest =>
    if pyStartswith fence s then some ([], s.drop 3)
    else (splitAtFence rest).map (fun p => (c :: p.1, p.2))

/-- Try the fenced-block pattern `` ```(\w+)?\n(.*?)``` `` at the start of
`s`, returning the language word and raw body. -/
def tryFenceAt (s : Str) : Option (Str × Str) :=
  match dropPre fence s with
  | some r =>
    let w := r.takeWhile isWordChar
    (match r.drop w.length with
     | '\n' :: body => (splitAtFence body).map (fun p => (w, p.1))
     | _ => Option.none)
  | Option.none => Option.none

/-- `re.search` for the fenced-block pattern with DOTALL
(structured_output.py line 438): leftmost position where the pattern
matches. -/
def searchFence : Str → Option (Str × Str)
  | [] => Option.none
  | c :: rest =>
    match tryFenceAt (c :: rest) with
    | some p => some p
    | Option.none => searchFence rest

/-- `_parse_code_block` (structured_output.py lines 436-450). -/
def parse_code_block (content : Str) : Option PyVal :=
  match searchFence content with
  | Option.none => Option.none
  | some (w, body) =>
    let language := if w.isEmpty then str "text" else pyStrip w
    let code := pyStrip body
    let base := [(PyVal.str (str "language"), PyVal.str language),
                 (PyVal.str (str "code"), PyVal.str code)]
    if pyLower language = str "json" || pyLower language = str "javascript" then
      let parsed :=
        match parse_json code with
        | some p => some p
        | Option.none => parse_json (pyStripSet [btick, ';'] code)
      match parsed with
      | some p => some (.dict (base ++ [(.str (str "parsed"), p)]))
      | Option.none => some (.dict base)
    else some (.dict base)

/-- The `MessageContentType` enum (src/src/models/enums.py lines 20-31).
Its members are TEXT, MARKDOWN, CODE, TABLE, IMAGE, JSON, HTML and
CHART; the enum has no `LIST` member, although structured_output.py
refers to `MessageContentType.LIST` (lines 39 and 78) — evaluating that
attribute raises an AttributeError at runtime. -/
inductive MessageContentType : Type where
  | TEXT
  | MARKDOWN
  | CODE
  | TABLE
  | IMAGE
  | JSON
  | HTML
  | CHART
  deriving DecidableEq, Repr

/-- The `ContentAnalysis` dataclass (structured_output.py lines 14-20). -/
structure ContentAnalysis : Type where
  content_type : MessageContentType
  structured_data : Option PyVal
  text : Str

/-- `analyse_content` (structured_output.py lines 23-57).  The list
branch (lines 38-39) returns an AttributeError because it evaluates the
missing enum member `MessageContentType.LIST`; all other branches follow
the source order: empty input, image, table, list, JSON/chart, code
block, HTML, markdown, plain text. -/
def analyse_content (content : Str) : Except PyErr ContentAnalysis :=
  let stripped := pyStrip content
  if stripped.isEmpty then .ok ⟨.TEXT, Option.none, content⟩
  else
    match extract_image_payload stripped with
    | some p => .ok ⟨.IMAGE, some p, content⟩
    | Option.none =>
      match parse_table stripped with
      | some t => .ok ⟨.TABLE, some t, content⟩
      | Option.none =>
        if parse_list_detect stripped then .error .attributeError
        else
          match parse_json stripped with
          | some j =>
            if looks_like_chart_spec j then .ok ⟨.CHART, some j, content⟩
            else .ok ⟨.JSON, some j, content⟩
          | Option.none =>
            match parse_code_block content with
            | some c => .ok ⟨.CODE, some c, content⟩
            | Option.none =>
              if looks_like_html stripped then .ok ⟨.HTML, Option.none, content⟩
              else if looks_like_markdown stripped then .ok ⟨.MARKDOWN, Option.none, content⟩
              else .ok ⟨.TEXT, Option.none, content⟩

/-- `str(v)` for the values that can appear as table cells.  Cells
produced by the repository are always strings, for which `str` is the
identity; the container cases render a simplified `repr`-like form (the
exact CPython rendering of floats and nested containers is not
modelled). -/
def pyStrVal : PyVal → Str
  | .str s => s
  | .int n => str (toString n)
  | .float q => str (toString q.num) ++ (if q.den = 1 then str ".0" else '/' :: str (toString q.den))
  | .bool b => if b then str "True" else str "False"
  | .none => str "None"
  | .list _ => str "[...]"
  | .dict _ => str "{...}"

/-- `_text_component` (structured_output.py lines 106-112). -/
def text_component (text : Str) : PyVal :=
  .dict [(.str (str "type"), .str (str "text")),
         (.str (str "payload"),
          .dict [(.str (str "content"), .str (if text.isEmpty then [] else pyStrip text))])]

/-- The body of the row loop of `_table_component` (structured_output.py
lines 166-173): a dict row is projected onto the kept headers when
headers were kept and non-empty, a list row is stringified cell-wise,
anything else is skipped. -/
def normalise_row (kept_headers : Option (List PyVal)) : PyVal → Option PyVal
  | .dict rd =>
    (match kept_headers with
     | some hs =>
       if !hs.isEmpty then
         some (.list (hs.map (fun h => .str (pyStrVal (dictGetD rd h (.str []))))))
       else Option.none
     | Option.none => Option.none)
  | .list cells => some (.list (cells.map (fun c => .str (pyStrVal c))))
  | _ => Option.none

/-- `_table_component` (structured_output.py lines 158-183). -/
def table_component (payload : List (PyVal × PyVal)) (fallback_text : Str) : Option PyVal :=
  let headers := dictGet payload (str "headers")
  let kept_headers : Option (List PyVal) :=
    match headers with
    | .list hs => if hs.all isStr then some hs else Option.none
    | _ => Option.none
  let normalised_rows : List PyVal :=
    match dictGet payload (str "rows") with
    | .list rows => rows.filterMap (normalise_row kept_headers)
    | _ => []
  let table_payload : List (PyVal × PyVal) :=
    (match kept_headers with
     | some hs => [(.str (str "headers"), .list hs)]
     | Option.none => []) ++
    (if normalised_rows.isEmpty then []
     else [(.str (str "rows"), .list normalised_rows)])
  if table_payload.isEmpty then
    if !fallback_text.isEmpty then some (text_component fallback_text) else Option.none
  else
    some (.dict [(.str (str "type"), .str (str "table")),
                 (.str (str "payload"), .dict table_payload)])

/-- `_build_components_from_analysis` (structured_output.py
lines 68-103).  The TABLE branch (lines 74-76) is the only reachable
one: the guard of the next branch (line 78) evaluates the missing enum
member `MessageContentType.LIST` and raises an AttributeError, so every
analysis that is not a TABLE with dict structured data errors out. -/
def build_components_from_analysis (a : ContentAnalysis) :
    Except PyErr (List PyVal) :=
  match a.content_type, a.structured_data with
  | .TABLE, some (.dict d) =>
    .ok (match table_component d a.text with
         | some c => [c]
         | Option.none => [])
  | _, _ => .error .attributeError

/-- `build_response_payload` (structured_output.py lines 60-65). -/
def build_response_payload (a : ContentAnalysis) : Except PyErr PyVal := do
  let components ← build_components_from_analysis a
  let components := if components.isEmpty then [text_component a.text] else components
  pure (.dict [(.str (str "components"), .list components)])

/-- The configuration fields of `McpServerConfig`
(src/src/config/mcp_config.py lines 46-60) that the context collector
reads: `name`, `command`, `url` (for the `label` property) and
`trigger_keywords` (a `list[str]` with empty default). -/
structure McpServerConfig : Type where
  name : Option Str := Option.none
  command : Option Str := Option.none
  url : Option Str := Option.none
  trigger_keywords : List Str := []

/-- First truthy of an optional string and an alternative, as in the
Python `or` chains over optional strings. -/
def orStr (o : Option Str) (alt : Str) : Str :=
  match o with
  | some v => if !v.isEmpty then v else alt
  | Option.none => alt

/-- The `label` property (mcp_config.py lines 102-106):
`self.name or self.command or (self.url or "<unnamed>")`. -/
def McpServerConfig.label (s : McpServerConfig) : Str :=
  orStr s.name (orStr s.command (orStr s.url (str "<unnamed>")))

/-- `_keywords_for_server` (src/src/context/mcp_context.py
lines 486-488): the server keywords, falling back to the global
configuration keywords when the server list is empty, lowercased, with
falsy (empty) keywords dropped. -/
def keywords_for_server (config_keywords : List Str) (server : McpServerConfig) :
    List Str :=
  let keywords :=
    if !server.trigger_keywords.isEmpty then server.trigger_keywords
    else config_keywords
  (keywords.filter (fun kw => !kw.isEmpty)).map pyLower

/-- `_should_query_server` (mcp_context.py lines 479-484). -/
def should_query_server (config_keywords : List Str) (server : McpServerConfig)
    (prompt : Str) : Bool :=
  let keywords := keywords_for_server config_keywords server
  if keywords.isEmpty then true
  else keywords.any (fun kw => pyIn kw (pyLower prompt))

/-- `_format_offline_notice` (mcp_context.py lines 496-503). -/
def format_offline_notice (servers : List Str) : Str :=
  match servers with
  | [] => []
  | [s] => str "MCP server " ++ [squote] ++ s ++ [squote] ++ str " is currently unavailable."
  | _ => str "MCP servers " ++ pyJoin (str ", ") servers ++ str " are currently unavailable."

/-- The outcome of `_collect_from_server` for one server, as observed by
the aggregation loop of `_acollect_context` (mcp_context.py
lines 94-111): the awaited call either raises an exception or returns an
optional section string.  `_collect_from_server` itself performs MCP
session I/O and is abstracted as this input. -/
inductive ServerOutcome : Type where
  | raises
  | returns (result : Option Str)

/-- The accumulation of `aggregated_sections` and `offline_servers` over
the server loop of `_acollect_context` (mcp_context.py lines 92-111),
on a list of `(label, outcome)` pairs in configuration order: an
exception appends the label to the offline list, a truthy (non-`None`,
non-empty) result appends the section. -/
def acollect_sections : List (Str × ServerOutcome) → List Str × List Str
  | [] => ([], [])
  | (label, o) :: rest =>
    let (secs, off) := acollect_sections rest
    match o with
    | .raises => (secs, label :: off)
    | .returns (some s) => if !s.isEmpty then (s :: secs, off) else (secs, off)
    | .returns Option.none => (secs, off)

/-- The merge step of `_acollect_context` (mcp_context.py
lines 113-130): sections joined by a blank line when any exist, else an
offline notice when any server failed, else `None`. -/
def acollect_context_loop (outs : List (Str × ServerOutcome)) : Option Str :=
  let (secs, off) := acollect_sections outs
  if !secs.isEmpty then some (pyJoin (str "\n\n") secs)
  else if !off.isEmpty then some (format_offline_notice off)
  else Option.none

/-- The per-property argument synthesis of `_prepare_tool_arguments`
(mcp_context.py lines 266-281): the first enum value when an `enum` is
present and truthy, the prompt for a `string` type, a one-element list
for an `array` whose items have an enum or are strings, and nothing
otherwise.  Subscripting a truthy non-list enum and attribute access on
a non-dict `items` value raise (modelled as `typeError`). -/
def fill_value (meta : List (PyVal × PyVal)) (prompt : Str) :
    Except PyErr (Option PyVal) :=
  let enum_values := pyOr (dictGet meta (str "enum")) (.list [])
  if pyTruthy enum_values then
    match enum_values with
    | .list (v :: _) => .ok (some v)
    | _ => .error .typeError
  else
    let field_type := dictGet meta (str "type")
    if pyKeyBeq field_type (.str (str "string")) then .ok (some (.str prompt))
    else if pyKeyBeq field_type (.str (str "array")) then
      match dictGetD meta (.str (str "items")) (.dict []) with
      | .dict items =>
        let item_enum := pyOr (dictGet items (str "enum")) (.list [])
        if pyTruthy item_enum then
          match item_enum with
          | .list (v :: _) => .ok (some (.list [v]))
          | _ => .error .typeError
        else if pyKeyBeq (dictGet items (str "type")) (.str (str "string")) then
          .ok (some (.list [.str prompt]))
        else .ok Option.none
      | _ => .error .typeError
    else .ok Option.none

/-- The property loop of `_prepare_tool_arguments` (mcp_context.py
lines 265-281), building the `arguments` mapping in iteration order. -/
def fill_arguments (props : List (Str × PyVal)) (prompt : Str) :
    Except PyErr (List (Str × PyVal)) :=
  match props with
  | [] => .ok []
  | (n, m) :: rest =>
    match m with
    | .dict md => do
      let v? ← fill_value md prompt
      let restArgs ← fill_arguments rest prompt
      (match v? with
       | some v => .ok ((n, v) :: restArgs)
       | Option.none => .ok restArgs)
    | _ => .error .attributeError

/-- `_prepare_tool_arguments` (mcp_context.py lines 253-293).  The
schema destructuring `schema.get("properties", {})` and
`schema.get("required", [])` is rendered by taking the declared
properties (name/metadata pairs in declaration order) and the required
names as inputs; `ok none` is the `return None` that declines the
call. -/
def prepare_tool_arguments (props : List (Str × PyVal)) (required : List Str)
    (prompt : Str) : Except PyErr (Option (List (Str × PyVal))) :=
  if props.isEmpty then .ok (some [])
  else do
    let args ← fill_arguments props prompt
    let missing := required.filter (fun r => !args.any (fun p => p.1 == r))
    if missing.isEmpty then .ok (some args) else .ok Option.none

/-- Python `round(q, 3)` is round-half-even; `bankersRound` is the
half-even rounding of a rational to an integer. -/
def bankersRound (q : ℚ) : ℤ :=
  let f := ⌊q⌋
  let r := q - f
  if r < 1 / 2 then f
  else if 1 / 2 < r then f + 1
  else if Even f then f else f + 1

/-- `round(x, 3)` on a float, modelled over the rationals. -/
def round3 (q : ℚ) : ℚ := (bankersRound (q * 1000) : ℚ) / 1000

/-- `_aggregate_numeric_values` (mcp_context.py lines 409-424), with
floats modelled as rationals: an empty mapping for an empty list, else
count, sum, average, min and max, the floats rounded to three decimal
places. -/
def aggregate_numeric_values (values : List ℚ) : List (Str × PyVal) :=
  match values with
  | [] => []
  | v :: vs =>
    let total := values.sum
    let count := values.length
    let average := total / count
    [(str "count", .int count),
     (str "sum", .float (round3 total)),
     (str "average", .float (round3 average)),
     (str "min", .float (round3 (vs.foldl min v))),
     (str "max", .float (round3 (vs.foldl max v)))]

/-- Claim-side chart condition, following the claim wording of C3: the
object has a string `type` or `chartType` field alongside a `data`,
`datasets` or `series` field (mere key presence), or both `mark` and
`encoding` keys, or any of the `datasets`, `series`, `axes`, `scales`
keys. -/
def c3_claim_chart_cond (d : List (PyVal × PyVal)) : Bool :=
  ((isStr (dictGet d (str "type")) || isStr (dictGet d (str "chartType"))) &&
    (dictHasKey d (str "data") || dictHasKey d (str "datasets") ||
      dictHasKey d (str "series"))) ||
  (dictHasKey d (str "mark") && dictHasKey d (str "encoding")) ||
  (dictHasKey d (str "datasets") || dictHasKey d (str "series") ||
    dictHasKey d (str "axes") || dictHasKey d (str "scales"))

/-- Amended chart condition for C3, written from the corrected claim
wording: the value selected by `or` from `type`/`chartType` (that is,
`type` when truthy, else `chartType`) is a string AND at least one of
the `data`/`datasets`/`series` values is truthy; or both `mark` and
`encoding` keys are present; or any of the `datasets`, `series`,
`axes`, `scales` keys is present. -/
def chart_cond_amended (d : List (PyVal × PyVal)) : Bool :=
  ((if pyTruthy (dictGet d (str "type")) then isStr (dictGet d (str "type"))
    else isStr (dictGet d (str "chartType"))) &&
    (pyTruthy (dictGet d (str "data")) || pyTruthy (dictGet d (str "datasets")) ||
      pyTruthy (dictGet d (str "series")))) ||
  (dictHasKey d (str "mark") && dictHasKey d (str "encoding")) ||
  (dictHasKey d (str "datasets") || dictHasKey d (str "series") ||
    dictHasKey d (str "axes") || dictHasKey d (str "scales"))

/-- Claim-side table condition of C4: the input contains two adjacent
non-blank lines where the first contains at least two `|` characters and
the second matches the separator pattern. -/
def c4_claim_cond (s : Str) : Bool :=
  looksTablePairs ((pySplitlines s).filter (fun l => !(pyStrip l).isEmpty))

/-- The rows a well-formed pipe table parses to: exactly the data lines
whose cell count equals the header count, zipped with the headers. -/
def parsed_rows (hcells : List Str) (D : List Str) : List PyVal :=
  D.filterMap (fun d =>
    if (pyCells d).length = hcells.length then some (dictZip hcells (pyCells d))
    else Option.none)

/-- The markdown-table payload expected for a well-formed pipe table
with header cells `hcells` and data lines `D`. -/
def md_table_payload (hcells : List Str) (D : List Str) : PyVal :=
  .dict [(.str (str "headers"), .list (hcells.map .str)),
         (.str (str "rows"), .list (parsed_rows hcells D))]

/-- Claim-side server-selection condition of C8, following the claim
wording: the effective keyword list (the server keywords, falling back to
the global list when the server has none) is empty, or some keyword of
that list occurs case-insensitively in the prompt. -/
def c8_claim_selected (config_keywords : List Str) (server : McpServerConfig)
    (prompt : Str) : Bool :=
  let eff :=
    if server.trigger_keywords.isEmpty then config_keywords
    else server.trigger_keywords
  eff.isEmpty || eff.any (fun kw => pyIn (pyLower kw) (pyLower prompt))

/-- Amended server-selection condition of C8: as the claim, except that
keywords that are empty strings are discarded before the check. -/
def c8_amended_selected (config_keywords : List Str) (server : McpServerConfig)
    (prompt : Str) : Bool :=
  let eff :=
    (if server.trigger_keywords.isEmpty then config_keywords
     else server.trigger_keywords).filter (fun kw => !kw.isEmpty)
  eff.isEmpty || eff.any (fun kw => pyIn (pyLower kw) (pyLower prompt))

/-- The sections accumulated by the aggregation loop, as a direct
filter: servers whose collection returned a truthy section, in order. -/
def sections_of (outs : List (Str × ServerOutcome)) : List Str :=
  outs.filterMap (fun p =>
    match p.2 with
    | .returns (some s) => if !s.isEmpty then some s else Option.none
    | _ => Option.none)

/-- The offline labels accumulated by the aggregation loop, as a direct
filter: servers whose collection raised, in order. -/
def offline_of (outs : List (Str × ServerOutcome)) : List Str :=
  outs.filterMap (fun p =>
    match p.2 with
    | .raises => some p.1
    | _ => Option.none)

/-- Claim-side fillability of one schema property for C7: it has a
truthy `enum`, or type `string`, or type `array` whose items carry a
truthy `enum` or are of type `string`. -/
def fillable_spec (meta : List (PyVal × PyVal)) : Bool :=
  pyTruthy (dictGet meta (str "enum")) ||
  pyKeyBeq (dictGet meta (str "type")) (.str (str "string")) ||
  (pyKeyBeq (dictGet meta (str "type")) (.str (str "array")) &&
    (match dictGetD meta (.str (str "items")) (.dict []) with
     | .dict items =>
       pyTruthy (dictGet items (str "enum")) ||
         pyKeyBeq (dictGet items (str "type")) (.str (str "string"))
     | _ => false))

/-- Fillability lifted to the raw property metadata value. -/
def metaFillable : PyVal → Bool
  | .dict md => fillable_spec md
  | _ => false

/-- Well-formedness of one property metadata entry, as assumed of
JSON-schema-like descriptions: the metadata is a dict, its `enum` (when
present) is a list, its `items` (when present) is a dict whose `enum`
(when present) is a list. -/
def metaOk (meta : List (PyVal × PyVal)) : Bool :=
  (match dictGet meta (str "enum") with
   | .list _ => true
   | .none => true
   | _ => false) &&
  (match dictGetD meta (.str (str "items")) (.dict []) with
   | .dict items =>
     (match dictGet items (str "enum") with
      | .list _ => true
      | .none => true
      | _ => false)
   | _ => false)

/-- Well-formedness of a whole property map. -/
def propsOk (props : List (Str × PyVal)) : Bool :=
  props.all (fun p =>
    match p.2 with
    | .dict md => metaOk md
    | _ => false)

/-- C1: the classification half of the claim holds — whitespace-only
input is classified TEXT with no structured data — but the build half
fails: `build_response_payload` on that analysis raises an
AttributeError instead of returning one empty text component, because
`_build_components_from_analysis` evaluates the missing enum member
`MessageContentType.LIST` (structured_output.py line 78, enums.py
lines 20-31) before reaching the TEXT branch. -/
theorem c1_empty_input_crash :
    analyse_content (str "   ") = .ok ⟨.TEXT, Option.none, str "   "⟩ ∧
    build_response_payload ⟨.TEXT, Option.none, str "   "⟩ = .error .attributeError := by
  exact ⟨rfl, rfl⟩

/-- C2: the at-least-one-component invariant fails on the code: for any
analysis other than a TABLE with dict structured data,
`build_response_payload` raises an AttributeError when the builder
evaluates the missing enum member `MessageContentType.LIST`
(structured_output.py line 78), shown here on a plain TEXT analysis. -/
theorem c2_builder_crash :
    build_response_payload ⟨.TEXT, Option.none, str "hello"⟩ = .error .attributeError := by
  exact rfl

/-- C10: the classifier invariant fails on the code: for a plain
unordered list input, `analyse_content` raises an AttributeError when it
evaluates the missing enum member `MessageContentType.LIST`
(structured_output.py line 39) instead of returning an analysis with
non-None structured data. -/
theorem c10_list_crash :
    analyse_content (str "- a\n- b") = .error .attributeError := by
  exact rfl

/-- C3 counterexample: the claim's own example `{"type": "bar",
"data": {}}` satisfies the claim's chart condition (a string `type`
field alongside a `data` field), yet `analyse_content` classifies it as
JSON, because `_looks_like_chart_spec` requires the `data` value to be
truthy and the empty object is falsy. -/
theorem c3_claim_counterexample :
    analyse_content (str "\x7b\"type\": \"bar\", \"data\": \x7b\x7d\x7d") =
      .ok ⟨.JSON,
           some (.dict [(.str (str "type"), .str (str "bar")),
                        (.str (str "data"), .dict [])]),
           str "\x7b\"type\": \"bar\", \"data\": \x7b\x7d\x7d"⟩ ∧
    c3_claim_chart_cond [(.str (str "type"), .str (str "bar")),
                         (.str (str "data"), .dict [])] = true := by
  exact ⟨rfl, rfl⟩

/-- C4 counterexample: the input `a|b\n---\nc|d` has no line with two
`|` characters, so the claim says it is not recognised as a markdown
pipe table; yet `analyse_content` classifies it as TABLE with parsed
headers and rows, because `_parse_markdown_table` only requires one `|`
in the header line (the two-`|` requirement belongs to the weaker
`_looks_like_table` heuristic). -/
theorem c4_claim_counterexample :
    analyse_content (str "a|b\n---\nc|d") =
      .ok ⟨.TABLE,
           some (.dict [(.str (str "headers"), .list [.str (str "a"), .str (str "b")]),
                        (.str (str "rows"),
                         .list [.dict [(.str (str "a"), .str (str "c")),
                                       (.str (str "b"), .str (str "d"))]])]),
           str "a|b\n---\nc|d"⟩ ∧
    c4_claim_cond (str "a|b\n---\nc|d") = false := by
  exact ⟨rfl, rfl⟩

/-- C5 counterexample: `a|b\n---\nc|d|e` is a markdown pipe table whose
single data row has a mismatched cell count; the claim says classifying
then building yields one table component with zero rows, but the code
drops the only candidate row, `_parse_markdown_table` then returns
nothing, the input is classified TEXT, and building even raises (the
missing `MessageContentType.LIST` member). -/
theorem c5_claim_counterexample :
    analyse_content (str "a|b\n---\nc|d|e") =
      .ok ⟨.TEXT, Option.none, str "a|b\n---\nc|d|e"⟩ ∧
    build_response_payload ⟨.TEXT, Option.none, str "a|b\n---\nc|d|e"⟩ =
      .error .attributeError := by
  exact ⟨rfl, rfl⟩

/-- C8 counterexample: with no global keywords, a server whose trigger
keywords are `["", "zzz"]` and the prompt `hello`: the claim's effective
keyword list is non-empty and its empty-string keyword occurs in every
prompt, so the claim selects the server; the code filters out falsy
keywords first and does not select it. -/
theorem c8_claim_counterexample :
    should_query_server [] ⟨Option.none, Option.none, Option.none, [[], str "zzz"]⟩
      (str "hello") = false ∧
    c8_claim_selected [] ⟨Option.none, Option.none, Option.none, [[], str "zzz"]⟩
      (str "hello") = true := by
  exact ⟨rfl, rfl⟩

/-- The loop accumulator equals the direct filters of the outcome
list. -/
theorem acollect_sections_eq (outs : List (Str × ServerOutcome)) :
    acollect_sections outs = (sections_of outs, offline_of outs) := by
  induction outs with
  | nil => rfl
  | cons p rest ih =>
    obtain ⟨label, o⟩ := p
    cases o with
    | raises =>
      simp [acollect_sections, ih, sections_of, offline_of, List.filterMap_cons]
    | returns r =>
      cases r with
      | none =>
        simp [acollect_sections, ih, sections_of, offline_of, List.filterMap_cons]
      | some s =>
        by_cases hs : s = [] <;>
          simp [acollect_sections, ih, sections_of, offline_of, List.filterMap_cons, hs]

/-- C6: the aggregation loop of `_acollect_context` merges exactly the
successful servers' truthy sections with one blank line between them
whenever at least one exists (failed servers contribute nothing to the
merged text); the offline notice over the failed servers is returned
exactly in the zero-sections, some-failures case; and `None` is returned
exactly in the zero-sections, zero-failures case. -/
theorem c6_aggregator (outs : List (Str × ServerOutcome)) :
    (sections_of outs ≠ [] →
      acollect_context_loop outs = some (pyJoin (str "\n\n") (sections_of outs))) ∧
    (sections_of outs = [] → offline_of outs ≠ [] →
      acollect_context_loop outs = some (format_offline_notice (offline_of outs))) ∧
    (sections_of outs = [] → offline_of outs = [] →
      acollect_context_loop outs = Option.none) := by
  unfold acollect_context_loop
  rw [acollect_sections_eq]
  refine ⟨fun h => ?_, fun h1 h2 => ?_, fun h1 h2 => ?_⟩
  · simp [h]
  · simp [h1, h2]
  · simp [h1, h2]

/-- C6 witness: one raising server and one successful server; the
sections list is non-empty and the aggregate equals the successful
section alone. -/
theorem c6_aggregator_witness :
    sections_of [(str "alpha", .raises), (str "beta", .returns (some (str "SectionB")))] ≠ [] ∧
    acollect_context_loop
        [(str "alpha", .raises), (str "beta", .returns (some (str "SectionB")))] =
      some (pyJoin (str "\n\n")
        (sections_of [(str "alpha", .raises), (str "beta", .returns (some (str "SectionB")))])) :=
  ⟨by decide,
   (c6_aggregator [(str "alpha", .raises), (str "beta", .returns (some (str "SectionB")))]).1
     (by decide)⟩

/-- C8 amended: a server is selected exactly when its effective keyword
list — the server keywords, falling back to the global list when the
server has none, with empty-string keywords discarded — is empty, or
some remaining keyword occurs case-insensitively in the prompt. -/
theorem c8_router_amended (config_keywords : List Str) (server : McpServerConfig)
    (prompt : Str) :
    should_query_server config_keywords server prompt =
      c8_amended_selected config_keywords server prompt := by
  have hfe : ∀ l : List Str,
      ((l.filter (fun kw => !kw.isEmpty)).isEmpty) = decide (∀ a ∈ l, a = []) := by
    intro l
    rw [Bool.eq_iff_iff]
    simp [List.isEmpty_iff, List.filter_eq_nil_iff]
  unfold should_query_server keywords_for_server c8_amended_selected
  cases hsk : server.trigger_keywords.isEmpty <;>
    simp_all [List.any_map, Function.comp, List.any_filter]

/-- Bind of a successful `Except` computation. -/
theorem except_bind_ok {ε α β : Type} (a : α) (f : α → Except ε β) :
    (Except.ok a : Except ε α) >>= f = f a := rfl

/-- Under well-formed metadata, the per-property synthesis never raises
and produces a value exactly for fillable properties. -/
theorem fill_value_ok (meta : List (PyVal × PyVal)) (prompt : Str)
    (h : metaOk meta = true) :
    ∃ v, fill_value meta prompt = .ok v ∧ v.isSome = fillable_spec meta := by
  unfold metaOk at h
  unfold fill_value fillable_spec
  cases he : dictGet meta (str "enum") with
  | list es =>
    cases es with
    | nil =>
      simp only [he, pyOr, pyTruthy, List.isEmpty_nil, Bool.not_true, if_false,
        Bool.false_or]
      by_cases hs : pyKeyBeq (dictGet meta (str "type")) (.str (str "string"))
      · exact ⟨some (.str prompt), by simp [hs], by simp [hs]⟩
      · by_cases ha : pyKeyBeq (dictGet meta (str "type")) (.str (str "array"))
        · cases hi : dictGetD meta (.str (str "items")) (.dict []) with
          | dict items =>
            cases hie : dictGet items (str "enum") with
            | list ies =>
              cases ies with
              | nil =>
                by_cases hit : pyKeyBeq (dictGet items (str "type")) (.str (str "string"))
                · exact ⟨some (.list [.str prompt]),
                    by simp [hs, ha, hi, hie, hit, pyOr, pyTruthy],
                    by simp [hs, ha, hi, hie, hit, pyOr, pyTruthy]⟩
                · exact ⟨Option.none,
                    by simp [hs, ha, hi, hie, hit, pyOr, pyTruthy],
                    by simp [hs, ha, hi, hie, hit, pyOr, pyTruthy]⟩
              | cons iv ivs =>
                exact ⟨some (.list [iv]),
                  by simp [hs, ha, hi, hie, pyOr, pyTruthy],
                  by simp [hs, ha, hi, hie, pyOr, pyTruthy]⟩
            | none =>
              by_cases hit : pyKeyBeq (dictGet items (str "type")) (.str (str "string"))
              · exact ⟨some (.list [.str prompt]),
                  by simp [hs, ha, hi, hie, hit, pyOr, pyTruthy],
                  by simp [hs, ha, hi, hie, hit, pyOr, pyTruthy]⟩
              · exact ⟨Option.none,
                  by simp [hs, ha, hi, hie, hit, pyOr, pyTruthy],
                  by simp [hs, ha, hi, hie, hit, pyOr, pyTruthy]⟩
            | str s => simp [he, hi, hie] at h
            | int n => simp [he, hi, hie] at h
            | float q => simp [he, hi, hie] at h
            | bool b => simp [he, hi, hie] at h
            | dict dd => simp [he, hi, hie] at h
          | str s => simp [he, hi] at h
          | int n => simp [he, hi] at h
          | float q => simp [he, hi] at h
          | bool b => simp [he, hi] at h
          | none => simp [he, hi] at h
          | list l => simp [he, hi] at h
        · exact ⟨Option.none, by simp [hs, ha], by simp [hs, ha]⟩
    | cons v vs =>
      exact ⟨some v, by simp [he, pyOr, pyTruthy], by simp [he, pyOr, pyTruthy]⟩
  | none =>
    simp only [he, pyOr, pyTruthy, if_false]
    by_cases hs : pyKeyBeq (dictGet meta (str "type")) (.str (str "string"))
    · exact ⟨some (.str prompt), by simp [hs], by simp [hs]⟩
    · by_cases ha : pyKeyBeq (dictGet meta (str "type")) (.str (str "array"))
      · cases hi : dictGetD meta (.str (str "items")) (.dict []) with
        | dict items =>
          cases hie : dictGet items (str "enum") with
          | list ies =>
            cases ies with
            | nil =>
              by_cases hit : pyKeyBeq (dictGet items (str "type")) (.str (str "string"))
              · exact ⟨some (.list [.str prompt]),
                  by simp [hs, ha, hi, hie, hit, pyOr, pyTruthy],
                  by simp [hs, ha, hi, hie, hit, pyOr, pyTruthy]⟩
              · exact ⟨Option.none,
                  by simp [hs, ha, hi, hie, hit, pyOr, pyTruthy],
                  by simp [hs, ha, hi, hie, hit, pyOr, pyTruthy]⟩
            | cons iv ivs =>
              exact ⟨some (.list [iv]),
                by simp [hs, ha, hi, hie, pyOr, pyTruthy],
                by simp [hs, ha, hi, hie, pyOr, pyTruthy]⟩
          | none =>
            by_cases hit : pyKeyBeq (dictGet items (str "type")) (.str (str "string"))
            · exact ⟨some (.list [.str prompt]),
                by simp [hs, ha, hi, hie, hit, pyOr, pyTruthy],
                by simp [hs, ha, hi, hie, hit, pyOr, pyTruthy]⟩
            · exact ⟨Option.none,
                by simp [hs, ha, hi, hie, hit, pyOr, pyTruthy],
                by simp [hs, ha, hi, hie, hit, pyOr, pyTruthy]⟩
          | str s => simp [he, hi, hie] at h
          | int n => simp [he, hi, hie] at h
          | float q => simp [he, hi, hie] at h
          | bool b => simp [he, hi, hie] at h
          | dict dd => simp [he, hi, hie] at h
        | str s => simp [he, hi] at h
        | int n => simp [he, hi] at h
        | float q => simp [he, hi] at h
        | bool b => simp [he, hi] at h
        | none => simp [he, hi] at h
        | list l => simp [he, hi] at h
      · exact ⟨Option.none, by simp [hs, ha], by simp [hs, ha]⟩
  | str s => simp [he] at h
  | int n => simp [he] at h
  | float q => simp [he] at h
  | bool b => simp [he] at h
  | dict dd => simp [he] at h

/-- Under a well-formed property map, the argument loop never raises,
and the synthesized argument mapping contains a name exactly when some
declared property of that name is fillable. -/
theorem fill_arguments_ok (props : List (Str × PyVal)) (prompt : Str)
    (h : propsOk props = true) :
    ∃ args, fill_arguments props prompt = .ok args ∧
      ∀ r : Str, args.any (fun p => p.1 == r) =
        props.any (fun p => p.1 == r && metaFillable p.2) := by
  induction props with
  | nil => exact ⟨[], rfl, by simp⟩
  | cons p rest ih =>
    obtain ⟨n, m⟩ := p
    rw [propsOk, List.all_cons, Bool.and_eq_true] at h
    obtain ⟨hm, hrest⟩ := h
    obtain ⟨args, hargs, hmem⟩ := ih hrest
    cases m with
    | dict md =>
      obtain ⟨v, hv, hsome⟩ := fill_value_ok md prompt hm
      cases v with
      | some vv =>
        refine ⟨(n, vv) :: args, ?_, ?_⟩
        · simp only [fill_arguments, hv, hargs]
          rfl
        · intro r
          have hf : fillable_spec md = true := by simpa using hsome.symm
          simp [List.any_cons, hmem, metaFillable, hf]
      | none =>
        refine ⟨args, ?_, ?_⟩
        · simp only [fill_arguments, hv, hargs]
          rfl
        · intro r
          have hf : fillable_spec md = false := by simpa using hsome.symm
          simp [List.any_cons, hmem, metaFillable, hf]
    | str s => simp [propsOk] at hm
    | int z => simp [propsOk] at hm
    | float q => simp [propsOk] at hm
    | bool b => simp [propsOk] at hm
    | none => simp [propsOk] at hm
    | list l => simp [propsOk] at hm

/-- C7: under a well-formed JSON-schema-like property description, the
argument synthesis declines (returns `None`) exactly when the property
map is non-empty and some required name has no fillable declared
property (no truthy enum, type neither `string` nor a fillable array —
in particular an undeclared required name); a schema with no declared
properties yields the empty mapping regardless of `required`. -/
theorem c7_arguments (props : List (Str × PyVal)) (required : List Str)
    (prompt : Str) (h : propsOk props = true) :
    (props = [] → prepare_tool_arguments props required prompt = .ok (some [])) ∧
    (prepare_tool_arguments props required prompt = .ok Option.none ↔
      props ≠ [] ∧ ∃ r ∈ required,
        props.any (fun p => p.1 == r && metaFillable p.2) = false) := by
  constructor
  · intro hp
    subst hp
    rfl
  · cases hps : props with
    | nil =>
      simp [prepare_tool_arguments]
    | cons p ps =>
      rw [← hps]
      have hne : props.isEmpty = false := by simp [hps]
      obtain ⟨args, hargs, hmem⟩ := fill_arguments_ok props prompt h
      unfold prepare_tool_arguments
      rw [hne]
      simp only [Bool.false_eq_true, if_false, hargs, except_bind_ok]
      by_cases hmiss :
          (required.filter (fun r => !args.any (fun p => p.1 == r))).isEmpty
      · rw [if_pos hmiss]
        rw [List.isEmpty_iff, List.filter_eq_nil_iff] at hmiss
        constructor
        · intro hcontra
          exact absurd hcontra (by simp)
        · rintro ⟨hne2, r, hr, hrf⟩
          have bnot_imp : ∀ b : Bool, ¬((!b) = true) → b = true := by decide
          have hT : args.any (fun p => p.1 == r) = true :=
            bnot_imp _ (hmiss r hr)
          rw [hmem r] at hT
          rw [hT] at hrf
          exact absurd hrf (by simp)
      · rw [if_neg hmiss]
        constructor
        · intro _
          rw [List.isEmpty_iff, List.filter_eq_nil_iff] at hmiss
          push_neg at hmiss
          obtain ⟨r, hr, hrf⟩ := hmiss
          refine ⟨by simp [hps], r, hr, ?_⟩
          have bnot_true : ∀ b : Bool, (!b) = true → b = false := by decide
          have hF : args.any (fun p => p.1 == r) = false := bnot_true _ hrf
          rw [hmem r] at hF
          exact hF
        · intro _
          rfl

/-- C7 witness: the claim's example schema with one required integer
property declines for a concrete prompt, via the characterisation. -/
theorem c7_arguments_witness :
    propsOk [(str "id", .dict [(.str (str "type"), .str (str "integer"))])] = true ∧
    prepare_tool_arguments
        [(str "id", .dict [(.str (str "type"), .str (str "integer"))])]
        [str "id"] (str "look up record") = .ok Option.none :=
  ⟨rfl,
   ((c7_arguments [(str "id", .dict [(.str (str "type"), .str (str "integer"))])]
       [str "id"] (str "look up record") rfl).2).mpr
     ⟨by simp, str "id", by simp, rfl⟩⟩

/-- The half-even rounding lies within a half of its argument. -/
theorem bankersRound_close (q : ℚ) : |(bankersRound q : ℚ) - q| ≤ 1 / 2 := by
  unfold bankersRound
  have h0 : (⌊q⌋ : ℚ) ≤ q := Int.floor_le q
  have h1 : q < (⌊q⌋ : ℚ) + 1 := Int.lt_floor_add_one q
  by_cases hlt : q - (⌊q⌋ : ℚ) < 1 / 2
  · rw [if_pos hlt, abs_le]
    constructor <;> linarith
  · rw [if_neg hlt]
    by_cases hgt : (1 : ℚ) / 2 < q - (⌊q⌋ : ℚ)
    · rw [if_pos hgt, abs_le]
      push_cast
      constructor <;> linarith
    · rw [if_neg hgt]
      have heq : q - (⌊q⌋ : ℚ) = 1 / 2 := le_antisymm (not_lt.mp hgt) (not_lt.mp hlt)
      by_cases hev : Even ⌊q⌋
      · rw [if_pos hev, abs_le]
        constructor <;> linarith
      · rw [if_neg hev, abs_le]
        push_cast
        constructor <;> linarith

/-- Half-even rounding is monotone. -/
theorem bankersRound_mono {a b : ℚ} (h : a ≤ b) : bankersRound a ≤ bankersRound b := by
  have hf : ⌊a⌋ ≤ ⌊b⌋ := Int.floor_le_floor h
  have hlb : ∀ q : ℚ, ⌊q⌋ ≤ bankersRound q := by
    intro q
    unfold bankersRound
    by_cases h1 : q - (⌊q⌋ : ℚ) < 1 / 2
    · rw [if_pos h1]
    · rw [if_neg h1]
      by_cases h2 : (1 : ℚ) / 2 < q - (⌊q⌋ : ℚ)
      · rw [if_pos h2]; omega
      · rw [if_neg h2]
        by_cases h3 : Even ⌊q⌋
        · rw [if_pos h3]
        · rw [if_neg h3]; omega
  have hub : ∀ q : ℚ, bankersRound q ≤ ⌊q⌋ + 1 := by
    intro q
    unfold bankersRound
    by_cases h1 : q - (⌊q⌋ : ℚ) < 1 / 2
    · rw [if_pos h1]; omega
    · rw [if_neg h1]
      by_cases h2 : (1 : ℚ) / 2 < q - (⌊q⌋ : ℚ)
      · rw [if_pos h2]
      · rw [if_neg h2]
        by_cases h3 : Even ⌊q⌋
        · rw [if_pos h3]; omega
        · rw [if_neg h3]
  rcases lt_or_eq_of_le hf with hlt | heq
  · calc bankersRound a ≤ ⌊a⌋ + 1 := hub a
      _ ≤ ⌊b⌋ := by omega
      _ ≤ bankersRound b := hlb b
  · unfold bankersRound
    rw [← heq]
    have hr : a - (⌊a⌋ : ℚ) ≤ b - (⌊a⌋ : ℚ) := by linarith
    by_cases h1 : a - (⌊a⌋ : ℚ) < 1 / 2
    · rw [if_pos h1]
      by_cases h2 : b - (⌊a⌋ : ℚ) < 1 / 2
      · rw [if_pos h2]
      · rw [if_neg h2]
        by_cases h3 : (1 : ℚ) / 2 < b - (⌊a⌋ : ℚ)
        · rw [if_pos h3]; omega
        · rw [if_neg h3]
          by_cases h4 : Even ⌊a⌋
          · rw [if_pos h4]
          · rw [if_neg h4]; omega
    · rw [if_neg h1]
      have hb1 : ¬(b - (⌊a⌋ : ℚ) < 1 / 2) := by
        intro hcontra
        exact h1 (lt_of_le_of_lt hr hcontra)
      rw [if_neg hb1]
      by_cases h2 : (1 : ℚ) / 2 < a - (⌊a⌋ : ℚ)
      · rw [if_pos h2, if_pos (lt_of_lt_of_le h2 hr)]
      · rw [if_neg h2]
        by_cases h3 : (1 : ℚ) / 2 < b - (⌊a⌋ : ℚ)
        · rw [if_pos h3]
          by_cases h4 : Even ⌊a⌋
          · rw [if_pos h4]; omega
          · rw [if_neg h4]
        · rw [if_neg h3]

/-- `round3` is monotone. -/
theorem round3_mono {a b : ℚ} (h : a ≤ b) : round3 a ≤ round3 b := by
  unfold round3
  have hm : bankersRound (a * 1000) ≤ bankersRound (b * 1000) :=
    bankersRound_mono (by linarith)
  have hc : ((bankersRound (a * 1000) : ℚ)) ≤ ((bankersRound (b * 1000) : ℚ)) := by
    exact_mod_cast hm
  linarith

/-- `round3` changes its argument by at most a half of a thousandth. -/
theorem round3_close (q : ℚ) : |round3 q - q| ≤ 1 / 2000 := by
  unfold round3
  have h := bankersRound_close (q * 1000)
  have heq : (bankersRound (q * 1000) : ℚ) / 1000 - q =
      ((bankersRound (q * 1000) : ℚ) - q * 1000) / 1000 := by ring
  rw [heq, abs_div]
  rw [abs_of_pos (by norm_num : (0 : ℚ) < 1000)]
  rw [div_le_iff₀ (by norm_num : (0 : ℚ) < 1000)]
  calc |(bankersRound (q * 1000) : ℚ) - q * 1000| ≤ 1 / 2 := h
    _ = 1 / 2000 * 1000 := by norm_num

/-- A left fold by `min` is a lower bound of the seed and all
elements. -/
theorem foldl_min_le (v : ℚ) (vs : List ℚ) :
    vs.foldl min v ≤ v ∧ ∀ x ∈ vs, vs.foldl min v ≤ x := by
  induction vs generalizing v with
  | nil => exact ⟨le_refl v, by simp⟩
  | cons w ws ih =>
    obtain ⟨h1, h2⟩ := ih (min v w)
    refine ⟨le_trans h1 (min_le_left v w), ?_⟩
    intro x hx
    rcases List.mem_cons.mp hx with hxw | hxs
    · subst hxw
      exact le_trans h1 (min_le_right v x)
    · exact h2 x hxs

/-- A left fold by `max` is an upper bound of the seed and all
elements. -/
theorem le_foldl_max (v : ℚ) (vs : List ℚ) :
    v ≤ vs.foldl max v ∧ ∀ x ∈ vs, x ≤ vs.foldl max v := by
  induction vs generalizing v with
  | nil => exact ⟨le_refl v, by simp⟩
  | cons w ws ih =>
    obtain ⟨h1, h2⟩ := ih (max v w)
    refine ⟨le_trans (le_max_left v w) h1, ?_⟩
    intro x hx
    rcases List.mem_cons.mp hx with hxw | hxs
    · subst hxw
      exact le_trans (le_max_right v x) h1
    · exact h2 x hxs

/-- A uniform lower bound of a list bounds its sum. -/
theorem mul_length_le_sum (m : ℚ) (l : List ℚ) (h : ∀ x ∈ l, m ≤ x) :
    m * l.length ≤ l.sum := by
  induction l with
  | nil => simp
  | cons x xs ih =>
    have hx : m ≤ x := h x (List.mem_cons_self x xs)
    have hxs : m * xs.length ≤ xs.sum := ih (fun y hy => h y (List.mem_cons_of_mem x hy))
    simp only [List.sum_cons, List.length_cons]
    push_cast
    linarith

/-- A uniform upper bound of a list bounds its sum. -/
theorem sum_le_mul_length (m : ℚ) (l : List ℚ) (h : ∀ x ∈ l, x ≤ m) :
    l.sum ≤ m * l.length := by
  induction l with
  | nil => simp
  | cons x xs ih =>
    have hx : x ≤ m := h x (List.mem_cons_self x xs)
    have hxs : xs.sum ≤ m * xs.length := ih (fun y hy => h y (List.mem_cons_of_mem x hy))
    simp only [List.sum_cons, List.length_cons]
    push_cast
    linarith

/-- C9: on a non-empty numeric list the aggregate mapping reports the
exact element count, its rounded minimum is at most its rounded average,
which is at most its rounded maximum, and its `sum` entry differs from
the arithmetic total by at most the half-thousandth introduced by
rounding to three decimal places; the empty list yields the empty
mapping.  Floats are modelled as rationals. -/
theorem c9_aggregate (values : List ℚ) (h : values ≠ []) :
    (∃ mn mx : ℚ,
      (aggregate_numeric_values values).lookup (str "count") =
        some (.int values.length) ∧
      (aggregate_numeric_values values).lookup (str "sum") =
        some (.float (round3 values.sum)) ∧
      (aggregate_numeric_values values).lookup (str "average") =
        some (.float (round3 (values.sum / values.length))) ∧
      (aggregate_numeric_values values).lookup (str "min") = some (.float mn) ∧
      (aggregate_numeric_values values).lookup (str "max") = some (.float mx) ∧
      mn ≤ round3 (values.sum / values.length) ∧
      round3 (values.sum / values.length) ≤ mx ∧
      |round3 values.sum - values.sum| ≤ 1 / 2000) ∧
    aggregate_numeric_values ([] : List ℚ) = [] := by
  refine ⟨?_, rfl⟩
  match values, h with
  | v :: vs, _ =>
    refine ⟨round3 (vs.foldl min v), round3 (vs.foldl max v), ?_⟩
    have hmin := foldl_min_le v vs
    have hmax := le_foldl_max v vs
    have hlen : (0 : ℚ) < ((v :: vs).length : ℚ) := by
      simp only [List.length_cons]
      push_cast
      positivity
    have hminall : ∀ x ∈ v :: vs, vs.foldl min v ≤ x := by
      intro x hx
      rcases List.mem_cons.mp hx with hxv | hxs
      · subst hxv; exact hmin.1
      · exact hmin.2 x hxs
    have hmaxall : ∀ x ∈ v :: vs, x ≤ vs.foldl max v := by
      intro x hx
      rcases List.mem_cons.mp hx with hxv | hxs
      · subst hxv; exact hmax.1
      · exact hmax.2 x hxs
    have hsum_lo := mul_length_le_sum (vs.foldl min v) (v :: vs) hminall
    have hsum_hi := sum_le_mul_length (vs.foldl max v) (v :: vs) hmaxall
    have havg_lo : vs.foldl min v ≤ (v :: vs).sum / ((v :: vs).length : ℚ) := by
      rw [le_div_iff₀ hlen]
      exact hsum_lo
    have havg_hi : (v :: vs).sum / ((v :: vs).length : ℚ) ≤ vs.foldl max v := by
      rw [div_le_iff₀ hlen]
      linarith [hsum_hi]
    refine ⟨rfl, rfl, rfl, rfl, rfl, ?_, ?_, round3_close _⟩
    · exact round3_mono havg_lo
    · exact round3_mono havg_hi

/-- C9 witness: the aggregate properties instantiated at the concrete
list `[1, 2]`. -/
theorem c9_aggregate_witness :
    ([1, 2] : List ℚ) ≠ [] ∧
    ((∃ mn mx : ℚ,
      (aggregate_numeric_values [1, 2]).lookup (str "count") =
        some (.int ([1, 2] : List ℚ).length) ∧
      (aggregate_numeric_values [1, 2]).lookup (str "sum") =
        some (.float (round3 ([1, 2] : List ℚ).sum)) ∧
      (aggregate_numeric_values [1, 2]).lookup (str "average") =
        some (.float (round3 (([1, 2] : List ℚ).sum / ([1, 2] : List ℚ).length))) ∧
      (aggregate_numeric_values [1, 2]).lookup (str "min") = some (.float mn) ∧
      (aggregate_numeric_values [1, 2]).lookup (str "max") = some (.float mx) ∧
      mn ≤ round3 (([1, 2] : List ℚ).sum / ([1, 2] : List ℚ).length) ∧
      round3 (([1, 2] : List ℚ).sum / ([1, 2] : List ℚ).length) ≤ mx ∧
      |round3 ([1, 2] : List ℚ).sum - ([1, 2] : List ℚ).sum| ≤ 1 / 2000) ∧
    aggregate_numeric_values ([] : List ℚ) = []) :=
  ⟨by decide, c9_aggregate [1, 2] (by decide)⟩

/-- The code's chart heuristic coincides with the amended claim-side
condition. -/
theorem chart_spec_eq_amended (d : List (PyVal × PyVal)) :
    looks_like_chart_spec (.dict d) = chart_cond_amended d := by
  unfold looks_like_chart_spec chart_cond_amended pyOr
  cases h1 : pyTruthy (dictGet d (str "type")) <;>
    cases h2 : pyTruthy (dictGet d (str "data")) <;>
      cases h3 : pyTruthy (dictGet d (str "datasets")) <;>
        cases h4 : pyTruthy (dictGet d (str "series")) <;>
          simp [h1, h2, h3, h4, Bool.or_assoc]

/-- C3 amended: for every string that reaches the JSON-parsing stage of
the classifier (not recognised as image, table or list) and whose parse
yields a top-level object, the classification is CHART exactly when the
amended chart condition holds — the `or`-selected `type`/`chartType`
value is a string and some `data`/`datasets`/`series` value is truthy,
or `mark` and `encoding` are both present, or one of `datasets`,
`series`, `axes`, `scales` is present — and is JSON otherwise. -/
theorem c3_chart_amended (s : Str) (d : List (PyVal × PyVal))
    (himg : extract_image_payload (pyStrip s) = Option.none)
    (htab : parse_table (pyStrip s) = Option.none)
    (hlist : parse_list_detect (pyStrip s) = false)
    (hjson : parse_json (pyStrip s) = some (.dict d)) :
    (analyse_content s = .ok ⟨.CHART, some (.dict d), s⟩ ↔
      chart_cond_amended d = true) ∧
    (chart_cond_amended d = false →
      analyse_content s = .ok ⟨.JSON, some (.dict d), s⟩) := by
  have hne : (pyStrip s).isEmpty = false := by
    cases hs : pyStrip s with
    | nil =>
      rw [hs, show parse_json [] = Option.none from rfl] at hjson
      exact absurd hjson (by simp)
    | cons c cs => rfl
  unfold analyse_content
  simp only [hne, Bool.false_eq_true, if_false, himg, htab, hlist, hjson,
    chart_spec_eq_amended]
  cases hc : chart_cond_amended d <;> simp [hc]

/-- C3 amended witness: a concrete chart-shaped JSON object reaching
the JSON stage is classified CHART via the amended condition. -/
theorem c3_chart_amended_witness :
    extract_image_payload (pyStrip (str "\x7b\"type\": \"bar\", \"data\": [1, 2]\x7d")) =
      Option.none ∧
    parse_table (pyStrip (str "\x7b\"type\": \"bar\", \"data\": [1, 2]\x7d")) =
      Option.none ∧
    parse_list_detect (pyStrip (str "\x7b\"type\": \"bar\", \"data\": [1, 2]\x7d")) = false ∧
    parse_json (pyStrip (str "\x7b\"type\": \"bar\", \"data\": [1, 2]\x7d")) =
      some (.dict [(.str (str "type"), .str (str "bar")),
                   (.str (str "data"), .list [.int 1, .int 2])]) ∧
    analyse_content (str "\x7b\"type\": \"bar\", \"data\": [1, 2]\x7d") =
      .ok ⟨.CHART,
           some (.dict [(.str (str "type"), .str (str "bar")),
                        (.str (str "data"), .list [.int 1, .int 2])]),
           str "\x7b\"type\": \"bar\", \"data\": [1, 2]\x7d"⟩ :=
  ⟨rfl, rfl, rfl, rfl,
   ((c3_chart_amended (str "\x7b\"type\": \"bar\", \"data\": [1, 2]\x7d")
       [(.str (str "type"), .str (str "bar")),
        (.str (str "data"), .list [.int 1, .int 2])] rfl rfl rfl rfl).1).mpr rfl⟩

/-- If the markdown-table scan succeeds, the line list contains an
adjacent pair whose first member has a `|` and whose second matches the
separator pattern. -/
theorem scanPairs_some :
    ∀ (lines : List Str) (p : PyVal), scanPairs lines = some p →
      ∃ pre a b post, lines = pre ++ a :: b :: post ∧
        a.contains '|' = true ∧ sepMatch b = true := by
  intro lines
  induction lines with
  | nil => intro p h; exact absurd h (by simp [scanPairs])
  | cons x rest ih =>
    intro p h
    cases rest with
    | nil => exact absurd h (by simp [scanPairs])
    | cons y t =>
      rw [scanPairs] at h
      by_cases hc : (x.contains '|' && sepMatch y) = true
      · obtain ⟨h1, h2⟩ : x.contains '|' = true ∧ sepMatch y = true := by simpa using hc
        exact ⟨[], x, y, t, rfl, h1, h2⟩
      · rw [if_neg hc] at h
        obtain ⟨pre, a, b, post, heq, ha, hb⟩ := ih p h
        exact ⟨x :: pre, a, b, post, by rw [heq]; rfl, ha, hb⟩

/-- C4 amended: whenever `analyse_content` classifies an input as TABLE
with the markdown pipe-table payload (headers present in the structured
data), the stripped non-blank lines of the input contain an adjacent
pair whose first line contains at least one `|` character and whose
second matches the separator pattern `^\|?\s*:?-{3,}` (the two-`|`
requirement of the original claim belongs only to the weaker raw-table
heuristic). -/
theorem c4_table_only_if_amended (s t : Str) (d : List (PyVal × PyVal))
    (h : analyse_content s = .ok ⟨.TABLE, some (.dict d), t⟩)
    (hmd : dictHasKey d (str "headers") = true) :
    ∃ pre a b post, pyLines (pyStrip s) = pre ++ a :: b :: post ∧
      a.contains '|' = true ∧ sepMatch b = true := by
  have hkey_html : ∀ v : PyVal,
      dictHasKey [(.str (str "html"), v)] (str "headers") = false := fun v => rfl
  have hkey_raw : ∀ v : PyVal,
      dictHasKey [(.str (str "raw"), v)] (str "headers") = false := fun v => rfl
  simp only [analyse_content] at h
  cases hne : (pyStrip s).isEmpty with
  | true => simp [hne] at h
  | false =>
    simp only [hne, Bool.false_eq_true, if_false] at h
    cases himg : extract_image_payload (pyStrip s) with
    | some p => simp [himg] at h
    | none =>
      simp only [himg] at h
      cases htab : parse_table (pyStrip s) with
      | none =>
        simp only [htab] at h
        cases hl : parse_list_detect (pyStrip s) with
        | true => simp [hl] at h
        | false =>
          simp only [hl, Bool.false_eq_true, if_false] at h
          cases hj : parse_json (pyStrip s) with
          | some j =>
            cases hcs : looks_like_chart_spec j with
            | true => simp [hj, hcs] at h
            | false => simp [hj, hcs] at h
          | none =>
            simp only [hj] at h
            cases hcb : parse_code_block s with
            | some c => simp [hcb] at h
            | none =>
              simp only [hcb] at h
              cases hht : looks_like_html (pyStrip s) with
              | true => simp [hht] at h
              | false =>
                simp only [hht, Bool.false_eq_true, if_false] at h
                cases hmk : looks_like_markdown (pyStrip s) with
                | true => simp [hmk] at h
                | false => simp [hmk] at h
      | some tp =>
        simp only [htab, Except.ok.injEq, ContentAnalysis.mk.injEq,
          Option.some.injEq] at h
        obtain ⟨-, htp, -⟩ := h
        unfold parse_table at htab
        cases hmt : parse_markdown_table (pyStrip s) with
        | some mp =>
          unfold parse_markdown_table at hmt
          exact scanPairs_some (pyLines (pyStrip s)) mp hmt
        | none =>
          simp only [hmt] at htab
          cases hh : (pyIn (str "<table") (pyLower (pyStrip s)) &&
              pyIn (str "</table>") (pyLower (pyStrip s))) with
          | true =>
            simp only [hh, if_true, Option.some.injEq] at htab
            rw [← htab] at htp
            simp only [PyVal.dict.injEq] at htp
            rw [← htp] at hmd
            rw [hkey_html] at hmd
            exact absurd hmd (by simp)
          | false =>
            simp only [hh, Bool.false_eq_true, if_false] at htab
            cases hr : looks_like_table (pyStrip s) with
            | true =>
              simp only [hr, if_true, Option.some.injEq] at htab
              rw [← htab] at htp
              simp only [PyVal.dict.injEq] at htp
              rw [← htp] at hmd
              rw [hkey_raw] at hmd
              exact absurd hmd (by simp)
            | false =>
              simp [hr] at htab

/-- C4 amended witness: a concrete one-`|` pipe table is classified as
a markdown TABLE, and from the theorem its lines contain the required
header/separator pair. -/
theorem c4_amended_witness :
    analyse_content (str "x|y\n----\nu|v") =
      .ok ⟨.TABLE,
           some (.dict [(.str (str "headers"), .list [.str (str "x"), .str (str "y")]),
                        (.str (str "rows"),
                         .list [.dict [(.str (str "x"), .str (str "u")),
                                       (.str (str "y"), .str (str "v"))]])]),
           str "x|y\n----\nu|v"⟩ ∧
    dictHasKey [(.str (str "headers"), .list [.str (str "x"), .str (str "y")]),
                (.str (str "rows"),
                 .list [.dict [(.str (str "x"), .str (str "u")),
                               (.str (str "y"), .str (str "v"))]])]
      (str "headers") = true ∧
    ∃ pre a b post, pyLines (pyStrip (str "x|y\n----\nu|v")) = pre ++ a :: b :: post ∧
      a.contains '|' = true ∧ sepMatch b = true :=
  ⟨rfl, rfl,
   c4_table_only_if_amended (str "x|y\n----\nu|v") (str "x|y\n----\nu|v")
     [(.str (str "headers"), .list [.str (str "x"), .str (str "y")]),
      (.str (str "rows"),
       .list [.dict [(.str (str "x"), .str (str "u")),
                     (.str (str "y"), .str (str "v"))]])]
     rfl rfl⟩

/-- A successful prefix strip decomposes the string. -/
theorem dropPre_some (pre s r : Str) (h : dropPre pre s = some r) : s = pre ++ r := by
  unfold dropPre at h
  by_cases hp : pre.isPrefixOf s
  · rw [if_pos hp] at h
    injection h with h
    obtain ⟨tail, htail⟩ := List.isPrefixOf_iff_prefix.mp hp
    subst htail
    rw [List.drop_left] at h
    rw [h]
  · rw [if_neg hp] at h
    exact absurd h (by simp)

/-- A string containing a newline never matches the whole-string image
URL pattern (`\S+` excludes whitespace). -/
theorem matchDirect_multiline (s : Str) (hn : '\n' ∈ s) :
    matchDirectImageUrl s = false := by
  have hnl : '\n' ∈ pyLower s := List.mem_map.mpr ⟨'\n', hn, rfl⟩
  have key : ∀ pre r : Str, '\n' ∉ pre → dropPre pre (pyLower s) = some r →
      (r.all (fun c => !pySpace c) &&
        imageExts.any (fun e => ('.' :: e).isSuffixOf r && decide (e.length + 1 < r.length))) =
        false := by
    intro pre r hpre hd
    have hs := dropPre_some _ _ _ hd
    have hmem : '\n' ∈ r := by
      rw [hs] at hnl
      rcases List.mem_append.mp hnl with hin | hin
      · exact absurd hin hpre
      · exact hin
    have hall : r.all (fun c => !pySpace c) = false := by
      cases hb : r.all (fun c => !pySpace c) with
      | false => rfl
      | true =>
        have := List.all_eq_true.mp hb '\n' hmem
        simp [pySpace] at this
    rw [hall, Bool.false_and]
  simp only [matchDirectImageUrl]
  cases hd1 : dropPre (str "https://") (pyLower s) with
  | some r => exact key _ r (by decide) hd1
  | none =>
    cases hd2 : dropPre (str "http://") (pyLower s) with
    | some r => exact key _ r (by decide) hd2
    | none => rfl

/-- A string not starting with `!` never matches the markdown image
pattern. -/
theorem matchMdImage_head (s : Str) (h : s.head? ≠ some '!') :
    matchMdImage s = Option.none := by
  unfold matchMdImage
  split
  · next a =>
    exact absurd rfl h
  · rfl

/-- Under the hypotheses of C5, the image extractor misses. -/
theorem extract_image_none (s : Str) (hstrip : pyStrip s = s) (hn : '\n' ∈ s)
    (hexcl : s.head? ≠ some '!') :
    extract_image_payload s = Option.none := by
  unfold extract_image_payload
  rw [matchDirect_multiline s hn]
  simp only [Bool.false_eq_true, if_false, hstrip]
  rw [matchMdImage_head s hexcl]

/-- The single-character split never yields an empty list of parts. -/
theorem pySplitChar_ne_nil (c : Char) (s : Str) : pySplitChar c s ≠ [] := by
  cases s with
  | nil => simp [pySplitChar]
  | cons x xs =>
    unfold pySplitChar
    cases hr : pySplitChar c xs with
    | nil => simp
    | cons y ys => by_cases hx : x = c <;> simp [hx]

/-- Cell extraction never yields an empty cell list. -/
theorem pyCells_ne_nil (l : Str) : pyCells l ≠ [] := by
  unfold pyCells
  rw [Ne, List.map_eq_nil_iff]
  exact pySplitChar_ne_nil '|' (pyStripChar '|' l)

/-- When every data line contains a `|`, the row-collection loop equals
the match-filtered projection. -/
theorem collectRows_eq (hs : List Str) (D : List Str)
    (hD : ∀ d ∈ D, d.contains '|' = true) :
    collectRows hs D = D.filterMap (fun d =>
      if (pyCells d).length = hs.length then some (dictZip hs (pyCells d))
      else Option.none) := by
  induction D with
  | nil => rfl
  | cons d rest ih =>
    have hd : d.contains '|' = true := hD d (List.mem_cons_self d rest)
    have hrest := fun x hx => hD x (List.mem_cons_of_mem d hx)
    rw [collectRows, hd]
    simp only [Bool.not_true, Bool.false_eq_true, if_false, List.filterMap_cons]
    by_cases hlen : (pyCells d).length = hs.length
    · simp [hlen, ih hrest]
    · simp [hlen, ih hrest]

/-- Length of an if-filterMap equals the count of matching elements. -/
theorem filterMap_if_length {α β : Type} (p : α → Prop) [DecidablePred p]
    (f : α → β) (l : List α) :
    (l.filterMap (fun d => if p d then some (f d) else Option.none)).length =
      l.countP (fun d => decide (p d)) := by
  induction l with
  | nil => rfl
  | cons x xs ih =>
    by_cases hx : p x <;>
      simp [List.filterMap_cons, List.countP_cons, hx, ih]

/-- A filterMap by an everywhere-defined function preserves length. -/
theorem filterMap_length_of_all_some {α β : Type} (g : α → Option β) (l : List α)
    (h : ∀ x ∈ l, (g x).isSome = true) : (l.filterMap g).length = l.length := by
  induction l with
  | nil => rfl
  | cons x xs ih =>
    have hx := h x (List.mem_cons_self x xs)
    obtain ⟨y, hy⟩ := Option.isSome_iff_exists.mp hx
    simp [List.filterMap_cons, hy,
      ih (fun z hz => h z (List.mem_cons_of_mem x hz))]

/-- On kept non-empty headers, the row normaliser is defined on every
dict row. -/
theorem normalise_row_isSome (hs : List PyVal) (x : PyVal)
    (hne : hs.isEmpty = false) (hx : isDict x = true) :
    (normalise_row (some hs) x).isSome = true := by
  cases x with
  | dict rd => simp [normalise_row, hne]
  | str s => simp [isDict] at hx
  | int n => simp [isDict] at hx
  | float q => simp [isDict] at hx
  | bool b => simp [isDict] at hx
  | none => simp [isDict] at hx
  | list l => simp [isDict] at hx

/-- On a markdown-table payload (string headers, dict rows), the table
component keeps the headers and one normalised row per parsed row. -/
theorem table_component_md (hcells : List Str) (R : List PyVal) (fb : Str)
    (hcne : hcells ≠ [])
    (hRd : ∀ x ∈ R, isDict x = true) (hRne : R ≠ []) :
    ∃ rows : List PyVal,
      table_component [(.str (str "headers"), .list (hcells.map .str)),
                       (.str (str "rows"), .list R)] fb =
        some (.dict [(.str (str "type"), .str (str "table")),
                     (.str (str "payload"),
                      .dict [(.str (str "headers"), .list (hcells.map .str)),
                             (.str (str "rows"), .list rows)])]) ∧
      rows.length = R.length := by
  have hh : dictGet [(.str (str "headers"), .list (hcells.map .str)),
      (.str (str "rows"), .list R)] (str "headers") = .list (hcells.map .str) := rfl
  have hr : dictGet [(.str (str "headers"), .list (hcells.map .str)),
      (.str (str "rows"), .list R)] (str "rows") = .list R := rfl
  have hall : (hcells.map PyVal.str).all isStr = true :=
    List.all_eq_true.mpr (fun x hx => by
      obtain ⟨y, hy, hyx⟩ := List.mem_map.mp hx
      rw [← hyx]
      rfl)
  have hme : (hcells.map PyVal.str).isEmpty = false := by
    cases hc : (hcells.map PyVal.str).isEmpty with
    | false => rfl
    | true =>
      rw [List.isEmpty_iff, List.map_eq_nil_iff] at hc
      exact absurd hc hcne
  have hlen : (R.filterMap (normalise_row (some (hcells.map PyVal.str)))).length =
      R.length :=
    filterMap_length_of_all_some _ R
      (fun x hx => normalise_row_isSome _ x hme (hRd x hx))
  have hnorm_ne : (R.filterMap (normalise_row (some (hcells.map PyVal.str)))).isEmpty =
      false := by
    cases hc : (R.filterMap (normalise_row (some (hcells.map PyVal.str)))).isEmpty with
    | false => rfl
    | true =>
      rw [List.isEmpty_iff] at hc
      rw [hc] at hlen
      exact absurd hlen.symm (by simpa using hRne)
  refine ⟨R.filterMap (normalise_row (some (hcells.map PyVal.str))), ?_, hlen⟩
  unfold table_component
  simp only [hh, hr, hall, if_true, hnorm_ne, Bool.false_eq_true, if_false]
  rfl

/-- C5 amended: for every input whose stripped non-blank lines form a
markdown pipe table — a header line containing a `|`, a separator line,
then data lines each containing a `|` — that is not an image reference,
and that has at least one data line whose cell count equals the header
count, classification yields TABLE with the parsed headers and exactly
the matching rows (mismatched rows dropped without aborting or
raising), and building yields exactly one `table` component whose rows
list has one entry per matching data line. -/
theorem c5_table_build_amended (s H S : Str) (D : List Str)
    (hstrip : pyStrip s = s)
    (hnl : '\n' ∈ s)
    (hexcl : s.head? ≠ some '!')
    (hlines : pyLines s = H :: S :: D)
    (hpipeH : H.contains '|' = true)
    (hsep : sepMatch S = true)
    (hD : ∀ d ∈ D, d.contains '|' = true)
    (hmatched : 0 < D.countP (fun d => decide ((pyCells d).length = (pyCells H).length))) :
    analyse_content s = .ok ⟨.TABLE, some (md_table_payload (pyCells H) D), s⟩ ∧
    ∃ rows : List PyVal,
      build_response_payload ⟨.TABLE, some (md_table_payload (pyCells H) D), s⟩ =
        .ok (.dict [(.str (str "components"),
          .list [.dict [(.str (str "type"), .str (str "table")),
                        (.str (str "payload"),
                         .dict [(.str (str "headers"), .list ((pyCells H).map .str)),
                                (.str (str "rows"), .list rows)])]])]) ∧
      rows.length = D.countP (fun d => decide ((pyCells d).length = (pyCells H).length)) := by
  have hlenR : (parsed_rows (pyCells H) D).length =
      D.countP (fun d => decide ((pyCells d).length = (pyCells H).length)) :=
    filterMap_if_length (fun d => (pyCells d).length = (pyCells H).length)
      (fun d => dictZip (pyCells H) (pyCells d)) D
  have hRne : parsed_rows (pyCells H) D ≠ [] := by
    intro hcon
    rw [hcon] at hlenR
    simp only [List.length_nil] at hlenR
    rw [← hlenR] at hmatched
    exact absurd hmatched (by simp)
  have hRie : (parsed_rows (pyCells H) D).isEmpty = false := by
    cases hc : (parsed_rows (pyCells H) D).isEmpty with
    | false => rfl
    | true =>
      rw [List.isEmpty_iff] at hc
      exact absurd hc hRne
  have hcr : collectRows (pyCells H) D = parsed_rows (pyCells H) D := by
    rw [collectRows_eq (pyCells H) D hD]
    rfl
  have hmt : parse_markdown_table s = some (md_table_payload (pyCells H) D) := by
    unfold parse_markdown_table
    rw [hlines, scanPairs, hpipeH, hsep]
    simp only [Bool.and_self, if_true, hcr, hRie, Bool.not_false]
    rfl
  have himg := extract_image_none s hstrip hnl hexcl
  have hptab : parse_table s = some (md_table_payload (pyCells H) D) := by
    unfold parse_table
    rw [hmt]
  have hne2 : s.isEmpty = false := by
    cases s with
    | nil => simp at hnl
    | cons c cs => rfl
  have hana : analyse_content s =
      .ok ⟨.TABLE, some (md_table_payload (pyCells H) D), s⟩ := by
    simp only [analyse_content, hstrip, hne2, Bool.false_eq_true, if_false, himg,
      hptab]
  refine ⟨hana, ?_⟩
  have hRd : ∀ x ∈ parsed_rows (pyCells H) D, isDict x = true := by
    intro x hx
    obtain ⟨d', hd', hfd⟩ := List.mem_filterMap.mp hx
    by_cases hl : (pyCells d').length = (pyCells H).length
    · rw [if_pos hl] at hfd
      injection hfd with hfd
      rw [← hfd]
      rfl
    · rw [if_neg hl] at hfd
      exact absurd hfd (by simp)
  obtain ⟨rows, htc, hrlen⟩ :=
    table_component_md (pyCells H) (parsed_rows (pyCells H) D) s
      (pyCells_ne_nil H) hRd hRne
  refine ⟨rows, ?_, by rw [hrlen, hlenR]⟩
  unfold build_response_payload build_components_from_analysis
  simp only [md_table_payload, htc, except_bind_ok]
  rfl

/-- C5 amended witness: a concrete table whose second data row has a
mismatched cell count; classification and build succeed with exactly
one matching row kept. -/
theorem c5_amended_witness :
    pyStrip (str "n|v\n---\n1|2\n3|4|5") = str "n|v\n---\n1|2\n3|4|5" ∧
    pyLines (str "n|v\n---\n1|2\n3|4|5") =
      [str "n|v", str "---", str "1|2", str "3|4|5"] ∧
    (analyse_content (str "n|v\n---\n1|2\n3|4|5") =
      .ok ⟨.TABLE,
           some (md_table_payload (pyCells (str "n|v")) [str "1|2", str "3|4|5"]),
           str "n|v\n---\n1|2\n3|4|5"⟩ ∧
    ∃ rows : List PyVal,
      build_response_payload
          ⟨.TABLE,
           some (md_table_payload (pyCells (str "n|v")) [str "1|2", str "3|4|5"]),
           str "n|v\n---\n1|2\n3|4|5"⟩ =
        .ok (.dict [(.str (str "components"),
          .list [.dict [(.str (str "type"), .str (str "table")),
                        (.str (str "payload"),
                         .dict [(.str (str "headers"),
                                 .list ((pyCells (str "n|v")).map .str)),
                                (.str (str "rows"), .list rows)])]])]) ∧
      rows.length = [str "1|2", str "3|4|5"].countP
        (fun d => decide ((pyCells d).length = (pyCells (str "n|v")).length))) :=
  ⟨rfl, rfl,
   c5_table_build_amended (str "n|v\n---\n1|2\n3|4|5") (str "n|v") (str "---")
     [str "1|2", str "3|4|5"] rfl (by decide) (by decide) rfl rfl rfl
     (by decide) (by decide)⟩
